import Mathlib

/-! The program snpe-sample: command-line processing, runtime selection and
builder configuration.

A shallow embedding of `jni/main.cpp` (`main`) and `jni/SetBuilderOptions.cpp`
(`setBuilderOptions`).

* The local and static variables of `main` are the fields of `Vars`.
* Everything `main` does that is visible from outside (text written to
  `std::cout` / `std::cerr`, calls into the SNPE SDK and into the helper
  translation units) is appended, in program order, to a trace of `Event`s.
* Whatever lies outside the two source files (the SDK, the helpers declared in
  `Util.hpp`, `CheckRuntime.hpp`, `LoadContainer.hpp`, `LoadUDOPackage.hpp`,
  the file system, the preprocessor switches) is a field of `Env`; every
  general theorem below is stated for an arbitrary `Env`.
* `std::exit(n)` and `return n` from `main` end a run with `Outcome.exit n`;
  an execution that the C++ standard leaves undefined ends with
  `Outcome.undefined`.
-/

namespace SnpeSample

/-! ## SDK types -/

/-- Modelled from the spec: the SDK's enumeration `zdl::DlSystem::Runtime_t`
(header not among the sources), with the backend ids that the program can
meet: the four ids named in `main`, the id of `gpu_float16` from the usage
text, and the `UNSET` sentinel. -/
inductive Runtime_t where
  | CPU
  | GPU
  | DSP
  | GPU_FLOAT16
  | AIP_FIXED_TF
  | UNSET
  deriving DecidableEq, Repr

/-- Modelled from the spec: the SDK's `zdl::DlSystem::RuntimeList` (header
`DlSystem/RuntimeList.hpp`, not among the sources), an ordered sequence of
backend ids. -/
abbrev RuntimeList := List Runtime_t

/-- Modelled from the spec: the SDK's `RuntimeList::add` (not among the
sources). The id is appended at the end of the list and `true` is returned;
an id that is already in the list is not added and `false` is returned. -/
def RuntimeList.add (l : RuntimeList) (r : Runtime_t) : RuntimeList × Bool :=
  if r ∈ l then (l, false) else (l ++ [r], true)

/-- Modelled from the spec: the SDK's `zdl::DlSystem::PlatformConfig` (header
not among the sources), an opaque value for this program. -/
structure PlatformConfig where
  platformOptions : String := ""
  deriving DecidableEq, Repr

/-! ## Observable behaviour -/

/-- What a run of the program does, in program order. -/
inductive Event where
  | initializeLogging
  | setLogLevel
  | cout (text : String)
  | cerr (text : String)
  | setResizableDim (n : Int)
  | stringToRuntime (s : String)
  | checkRuntime (r : Runtime_t) (staticQuantization : Bool)
  | loadContainerFromFile (dlc : String)
  | loadUDOPackage (path : String)
  | setOutputLayers
  | setRuntimeProcessorOrder (l : RuntimeList)
  | setUseUserSuppliedBuffers (b : Bool)
  | setPlatformConfig (pc : PlatformConfig)
  | setInitCacheMode (b : Bool)
  | setCpuFixedPointMode (b : Bool)
  | build
  | save (dlc : String)
  | getInputDimensions
  | preprocessInput (inputFile : String) (batchSize : Nat)
  deriving DecidableEq, Repr

/-- How a run ends. -/
inductive Outcome where
  | exit (status : Nat)
  | undefined
  deriving DecidableEq, Repr

/-- A finished run: its trace and its end. -/
structure Run where
  trace : List Event
  outcome : Outcome
  deriving DecidableEq, Repr

/-- Everything outside `main.cpp` and `SetBuilderOptions.cpp`. -/
structure Env where
  /-- The function `split` of `Util.hpp`: the token vector of a separated string. -/
  split : String → Char → List String
  /-- The function `RuntimeList::stringToRuntime` of the SDK. -/
  stringToRuntime : String → Runtime_t
  /-- The text returned by `zdl::DlSystem::getLastErrorString` of the SDK. -/
  getLastErrorString : String
  /-- The function `atoi` of the C library. -/
  atoi : String → Int
  /-- Whether a `std::ifstream` constructed on the path is in a good state. -/
  fileOpens : String → Bool
  /-- The runtime returned by `checkRuntime` of `CheckRuntime.hpp`. -/
  checkRuntime : Runtime_t → Bool → Runtime_t
  /-- Whether `loadContainerFromFile` returns a non-null container. -/
  loadContainerFromFile : String → Bool
  /-- The result of `loadUDOPackage`. -/
  loadUDOPackage : String → Bool
  /-- Whether `SNPEBuilder::build` returns a non-null SNPE object, given the
  runtime order, the user-buffer flag, the platform configuration, the
  init-cache mode and the CPU fixed-point mode that were set. -/
  build : RuntimeList → Bool → PlatformConfig → Bool → Bool → Bool
  /-- The result of `IDlContainer::save`. -/
  save : String → Bool
  /-- The dimensions behind `TensorShape::getDimensions` of the built network. -/
  inputDimensions : List Nat
  /-- Preprocessor switch `ENABLE_GL_BUFFER`. -/
  enableGLBuffer : Bool
  /-- Preprocessor switch `DNN_RUNTIME_HAVE_AIP_RUNTIME`. -/
  haveAipRuntime : Bool

/-! ## The variables of `main` -/

def FAILURE : Nat := 1
def SUCCESS : Nat := 0
def EXIT_FAILURE : Nat := 1

/-- The anonymous buffer-type enumeration of `main`. -/
inductive BufferType where
  | UNKNOWN
  | USERBUFFER_FLOAT
  | USERBUFFER_TF8
  | ITENSOR
  | USERBUFFER_TF16
  deriving DecidableEq, Repr

/-- The command-line variables of `main` (lines 54-67) together with the
trace written so far. -/
structure Vars where
  dlc : String := ""
  OutputDir : String := "./output/"
  inputFile : String := ""
  bufferTypeStr : String := "ITENSOR"
  userBufferSourceStr : String := "CPUBUFFER"
  staticQuantizationStr : String := "false"
  runtime : Runtime_t := Runtime_t.CPU
  runtimeList : RuntimeList := []
  runtimeSpecified : Bool := false
  usingInitCaching : Bool := false
  cpuFixedPointMode : Bool := false
  UdoPackagePath : String := ""
  trace : List Event := []
  deriving DecidableEq, Repr

/-- Append events to the trace. -/
def Vars.emit (v : Vars) (es : List Event) : Vars :=
  { v with trace := v.trace ++ es }

/-- End the run after writing the given events. -/
def Vars.stop (v : Vars) (es : List Event) (o : Outcome) : Run :=
  ⟨v.trace ++ es, o⟩

/-! ## `getopt` -/

/-- The option string handed to `getopt` on line 82. -/
def optstring : String := "hi:d:o:b:q:s:z:r:l:u:c:x"

/-- What a call of `getopt` returns: `-1`, `'?'`, or an option character
with the value of `optarg` (null for an option without argument). -/
inductive GetoptRet where
  | done
  | bad
  | opt (c : Char) (optarg : Option String)
  deriving DecidableEq, Repr

/-- The scanning state of `getopt`: `optind`, and the option characters of
`argv[optind]` that are still unread (empty between words). -/
structure GetoptState where
  optind : Nat := 1
  place : List Char := []
  deriving DecidableEq, Repr

/-- Look an option character up in an option string: `none` when it is not
an option, otherwise whether it is followed by a colon (takes an argument). -/
def optLookup : List Char → Char → Option Bool
  | [], _ => none
  | o :: rest, c =>
    if o = c ∧ c ≠ ':' then some (decide (rest.head? = some ':'))
    else optLookup rest c

/-- POSIX `getopt` on one option character `c` of the word `argv[optind]`,
`cs` being the characters after it in that word. -/
def getoptChar (argv : List String) (opts : String) (optind : Nat)
    (c : Char) (cs : List Char) : GetoptRet × GetoptState :=
  match optLookup opts.data c with
  | none => (GetoptRet.bad, ⟨if cs = [] then optind + 1 else optind, cs⟩)
  | some false =>
    (GetoptRet.opt c none, ⟨if cs = [] then optind + 1 else optind, cs⟩)
  | some true =>
    match cs with
    | _ :: _ => (GetoptRet.opt c (some (String.mk cs)), ⟨optind + 1, []⟩)
    | [] =>
      match argv[optind + 1]? with
      | some a => (GetoptRet.opt c (some a), ⟨optind + 2, []⟩)
      | none => (GetoptRet.bad, ⟨optind + 1, []⟩)

/-- POSIX `getopt(argc, argv, opts)` (the C library, as on Android: no
permutation of `argv`, scanning stops at the first word that is not an
option): one call, from the scanning state `st`. -/
def getopt (argv : List String) (opts : String) (st : GetoptState) :
    GetoptRet × GetoptState :=
  match st.place with
  | c :: cs => getoptChar argv opts st.optind c cs
  | [] =>
    match argv[st.optind]? with
    | none => (GetoptRet.done, st)
    | some w =>
      match w.data with
      | '-' :: c :: cs =>
        if c = '-' ∧ cs = [] then (GetoptRet.done, ⟨st.optind + 1, []⟩)
        else getoptChar argv opts st.optind c cs
      | _ => (GetoptRet.done, st)

/-! ## The option loop of `main` (lines 82-228) -/

/-- The text written for `-h` (lines 87-129). -/
def usageText (env : Env) (bufferTypeStr userBufferSourceStr : String) : String :=
  "\nDESCRIPTION:\n"
  ++ "------------\n"
  ++ "Example application demonstrating how to load and execute a neural network\n"
  ++ "using the SNPE C++ API.\n"
  ++ "\n\n"
  ++ "REQUIRED ARGUMENTS:\n"
  ++ "-------------------\n"
  ++ "  -d  <FILE>   Path to the DL container containing the network.\n"
  ++ "  -i  <FILE>   Path to a file listing the inputs for the network.\n"
  ++ "  -o  <PATH>   Path to directory to store output results.\n"
  ++ "\n"
  ++ "OPTIONAL ARGUMENTS:\n"
  ++ "-------------------\n"
  ++ "  -b  <TYPE>   Type of buffers to use [USERBUFFER_FLOAT, USERBUFFER_TF8, ITENSOR, USERBUFFER_TF16] (" ++ bufferTypeStr ++ " is default).\n"
  ++ "  -q  <BOOL>    Specifies to use static quantization parameters from the model instead of input specific quantization [true, false]. Used in conjunction with USERBUFFER_TF8. \n"
  ++ "  -r  <RUNTIME> The runtime to be used [gpu, dsp, aip, cpu] (cpu is default). \n"
  ++ "  -u  <VAL,VAL> Path to UDO package with registration library for UDOs. \n"
  ++ "                Optionally, user can provide multiple packages as a comma-separated list. \n"
  ++ "  -z  <NUMBER>  The maximum number that resizable dimensions can grow into. \n"
  ++ "                Used as a hint to create UserBuffers for models with dynamic sized outputs. Should be a positive integer and is not applicable when using ITensor. \n"
  ++ (if env.enableGLBuffer then
        "  -s  <TYPE>   Source of user buffers to use [GLBUFFER, CPUBUFFER] (" ++ userBufferSourceStr ++ " is default).\n"
      else "")
  ++ "  -c           Enable init caching to accelerate the initialization process of SNPE. Defaults to disable.\n"
  ++ "  -l  <VAL,VAL,VAL> Specifies the order of precedence for runtime e.g  cpu_float32, dsp_fixed8_tf etc. Valid values are:- \n"
  ++ "                    cpu_float32 (Snapdragon CPU)       = Data & Math: float 32bit \n"
  ++ "                    gpu_float32_16_hybrid (Adreno GPU) = Data: float 16bit Math: float 32bit \n"
  ++ "                    dsp_fixed8_tf (Hexagon DSP)        = Data & Math: 8bit fixed point Tensorflow style format \n"
  ++ "                    gpu_float16 (Adreno GPU)           = Data: float 16bit Math: float 16bit \n"
  ++ (if env.haveAipRuntime then
        "                    aip_fixed8_tf (Snapdragon HTA+HVX) = Data & Math: 8bit fixed point Tensorflow style format \n"
      else "")
  ++ "                    cpu (Snapdragon CPU)               = Same as cpu_float32 \n"
  ++ "                    gpu (Adreno GPU)                   = Same as gpu_float32_16_hybrid \n"
  ++ "                    dsp (Hexagon DSP)                  = Same as dsp_fixed8_tf \n"
  ++ (if env.haveAipRuntime then
        "                    aip (Snapdragon HTA+HVX)           = Same as aip_fixed8_tf \n"
      else "")
  ++ "  -x            Specifies to use the fixed point execution on CPU runtime for quantized DLC.\n"
  ++ "                Used in conjunction with CPU runtime.\n"

/-- The body of `case 'r'` (lines 153-173). The third comparison is
`strcmp(optarg, "dsp")` with no `== 0`: it holds when `optarg` differs from
`"dsp"`. -/
def caseR (optarg : String) (v : Vars) : Vars :=
  let v := { v with runtimeSpecified := true }
  if optarg = "gpu" then { v with runtime := Runtime_t.GPU }
  else if optarg = "aip" then { v with runtime := Runtime_t.AIP_FIXED_TF }
  else if optarg ≠ "dsp" then { v with runtime := Runtime_t.DSP }
  else if optarg = "cpu" then { v with runtime := Runtime_t.CPU }
  else v.emit [Event.cerr "The runtime option provide is not valid. Defaulting to the CPU runtime."]

/-- The duplicate loop of `case 'l'` (lines 183-190) with the iterator at
the element `t`, `rest` being the elements after it: whether the loop
reaches its `std::exit`. The loop ends when the iterator is `end() - 1`. -/
def dupLoop : String → List String → Bool
  | _, [] => false
  | t, u :: rest => if t ∈ u :: rest then true else dupLoop u rest

/-- The duplicate loop started at `begin()`. On an empty vector `end() - 1`
lies before `begin()` and the first iteration reads `*begin()`: undefined
behaviour, `none`. -/
def checkDups : List String → Option Bool
  | [] => none
  | t :: rest => some (dupLoop t rest)

/-- The diagnostics of `case 'l'`; `arg` is `argv[optind - 2]`. -/
def dupMessage (arg : String) : String :=
  "Error: Invalid values passed to the argument " ++ arg ++ ". Duplicate entries in runtime order."

def addFailedMessage (arg : String) : String :=
  "Error: Invalid values passed to the argument " ++ arg ++ ". Please provide comma seperated runtime order of precedence."

def unknownMessage (arg : String) : String :=
  "Error: Invalid values passed to the argument " ++ arg ++ ". Please provide comma seperated runtime order of precedence"

/-- The resolution loop of `case 'l'` (lines 193-211) over the tokens that
are still to be visited. -/
def resolveLoop (env : Env) (arg : String) : List String → Vars → Except Run Vars
  | [], v => Except.ok v
  | runtimeStr :: rest, v =>
    let runtime := env.stringToRuntime runtimeStr
    let v := v.emit [Event.stringToRuntime runtimeStr]
    if runtime ≠ Runtime_t.UNSET then
      let added := RuntimeList.add v.runtimeList runtime
      let v := { v with runtimeList := added.1 }
      if added.2 = false then
        Except.error (v.stop [Event.cerr env.getLastErrorString,
          Event.cerr (addFailedMessage arg)] (Outcome.exit FAILURE))
      else resolveLoop env arg rest v
    else
      Except.error (v.stop [Event.cerr (unknownMessage arg)] (Outcome.exit FAILURE))

/-- The body of `case 'l'` (lines 176-212); `arg` is `argv[optind - 2]`. -/
def caseL (env : Env) (arg : String) (optarg : String) (v : Vars) : Except Run Vars :=
  let inputString := optarg
  let v := v.emit [Event.cout ("Input String: " ++ inputString)]
  let runtimeStrVector := env.split inputString ','
  match checkDups runtimeStrVector with
  | none => Except.error (v.stop [] Outcome.undefined)
  | some true => Except.error (v.stop [Event.cerr (dupMessage arg)] (Outcome.exit FAILURE))
  | some false => resolveLoop env arg runtimeStrVector { v with runtimeList := [] }

/-- The `switch (opt)` of lines 84-227, for an option that takes an
argument and whose `optarg` is `a`. -/
def switchArg (env : Env) (argv : List String) (optind : Nat) (c : Char) (a : String)
    (v : Vars) : Except Run Vars :=
  if c = 'i' then Except.ok { v with inputFile := a }
  else if c = 'd' then Except.ok { v with dlc := a }
  else if c = 'o' then Except.ok { v with OutputDir := a }
  else if c = 'b' then Except.ok { v with bufferTypeStr := a }
  else if c = 'q' then Except.ok { v with staticQuantizationStr := a }
  else if c = 's' then Except.ok { v with userBufferSourceStr := a }
  else if c = 'z' then Except.ok (v.emit [Event.setResizableDim (env.atoi a)])
  else if c = 'r' then Except.ok (caseR a v)
  else if c = 'l' then caseL env (argv.getD (optind - 2) "") a v
  else if c = 'c' then Except.ok { v with usingInitCaching := true }
  else if c = 'u' then Except.ok { v with UdoPackagePath := a }
  else if c = 'x' then Except.ok { v with cpuFixedPointMode := true }
  else
    Except.error (v.stop [Event.cout "Invalid parameter specified. Please run snpe-sample with the -h flag to see required arguments"]
      (Outcome.exit FAILURE))

/-- The `switch (opt)` of lines 84-227 on the value returned by `getopt`
(never `-1` here); `optind` is its value after that call. A case that reads
`optarg` while it is null is undefined behaviour. -/
def switchOpt (env : Env) (argv : List String) (optind : Nat) :
    GetoptRet → Vars → Except Run Vars
  | GetoptRet.opt c (some a), v =>
    if c = 'h' then
      Except.error (v.stop [Event.cout (usageText env v.bufferTypeStr v.userBufferSourceStr)]
        (Outcome.exit SUCCESS))
    else switchArg env argv optind c a v
  | GetoptRet.opt c none, v =>
    if c = 'h' then
      Except.error (v.stop [Event.cout (usageText env v.bufferTypeStr v.userBufferSourceStr)]
        (Outcome.exit SUCCESS))
    else if c = 'c' then Except.ok { v with usingInitCaching := true }
    else if c = 'x' then Except.ok { v with cpuFixedPointMode := true }
    else if c = 'i' ∨ c = 'd' ∨ c = 'o' ∨ c = 'b' ∨ c = 'q' ∨ c = 's' ∨ c = 'z' ∨ c = 'r'
        ∨ c = 'l' ∨ c = 'u' then
      Except.error (v.stop [] Outcome.undefined)
    else
      Except.error (v.stop [Event.cout "Invalid parameter specified. Please run snpe-sample with the -h flag to see required arguments"]
        (Outcome.exit FAILURE))
  | _, v =>
    Except.error (v.stop [Event.cout "Invalid parameter specified. Please run snpe-sample with the -h flag to see required arguments"]
      (Outcome.exit FAILURE))

/-- One evaluation of the loop condition on line 82 followed, unless
`getopt` returned `-1`, by the loop body: `none` when the loop is left,
otherwise the result of the body and the scanning state for the next turn. -/
def iteration (env : Env) (argv : List String) (st : GetoptState) (v : Vars) :
    Option (Except Run Vars × GetoptState) :=
  match getopt argv optstring st with
  | (GetoptRet.done, _) => none
  | (r, st') => some (switchOpt env argv st'.optind r v, st')

/-- The `while` loop of line 82, run for at most `fuel` turns: `none` when
the turns do not suffice. -/
def optionLoop (env : Env) (argv : List String) :
    Nat → GetoptState → Vars → Option (Except Run Vars)
  | 0, _, _ => none
  | fuel + 1, st, v =>
    match iteration env argv st v with
    | none => some (Except.ok v)
    | some (Except.error r, _) => some (Except.error r)
    | some (Except.ok v', st') => optionLoop env argv fuel st' v'

/-! ## `setBuilderOptions` (SetBuilderOptions.cpp) -/

/-- The function `setBuilderOptions` (lines 7-31): the calls made on the
builder, in order, and whether `build` returned a non-null object. The
container only reaches the builder's constructor and is left out. -/
def setBuilderOptions (env : Env) (runtime : Runtime_t) (runtimeList : RuntimeList)
    (useUserSuppliedBuffers : Bool) (platformConfig : PlatformConfig)
    (useCacheing : Bool) (cpuFixedPointMode : Bool) : List Event × Bool :=
  let runtimeList :=
    if runtimeList.isEmpty then (RuntimeList.add runtimeList runtime).1 else runtimeList
  ([Event.setOutputLayers,
    Event.setRuntimeProcessorOrder runtimeList,
    Event.setUseUserSuppliedBuffers useUserSuppliedBuffers,
    Event.setPlatformConfig platformConfig,
    Event.setInitCacheMode useCacheing,
    Event.setCpuFixedPointMode cpuFixedPointMode,
    Event.build],
   env.build runtimeList useUserSuppliedBuffers platformConfig useCacheing cpuFixedPointMode)

/-! ## `main` after the option loop (lines 230-377) -/

/-- The buffer-type check of lines 242-264: `none` for a string that is no
buffer type. -/
def bufferTypeOf (bufferTypeStr : String) : Option BufferType :=
  if bufferTypeStr = "USERBUFFER_FLOAT" then some BufferType.USERBUFFER_FLOAT
  else if bufferTypeStr = "USERBUFFER_TF8" then some BufferType.USERBUFFER_TF8
  else if bufferTypeStr = "USERBUFFER_TF16" then some BufferType.USERBUFFER_TF16
  else if bufferTypeStr = "ITENSOR" then some BufferType.ITENSOR
  else none

/-- The user-buffer-source check of lines 269-290: the text written when
the check ends the run, `none` when it passes. -/
def userBufferSourceError (env : Env) (bufferType : BufferType)
    (userBufferSourceStr : String) : Option String :=
  if bufferType = BufferType.USERBUFFER_FLOAT then
    if userBufferSourceStr = "CPUBUFFER" then none
    else if userBufferSourceStr = "GLBUFFER" then
      if env.enableGLBuffer then none
      else some "GLBUFFER mode is only for supported on Android OS."
    else some "Source of user buffer type is not valid. Please run snpe-sample with the -h flag for more details"
  else none

/-- The static-quantization parse of lines 292-304: `none` for a string
that is neither `true` nor `false`. -/
def staticQuantizationOf (staticQuantizationStr : String) : Option Bool :=
  if staticQuantizationStr = "true" then some true
  else if staticQuantizationStr = "false" then some false
  else none

/-- Lines 346-377: from the null check of the built object to the end. -/
def afterBuild (env : Env) (v : Vars) (snpe : Bool) : Run :=
  if snpe = false then
    v.stop [Event.cerr "Error while building SNPE object."] (Outcome.exit EXIT_FAILURE)
  else
    let v :=
      if v.usingInitCaching then
        if env.save v.dlc then
          v.emit [Event.save v.dlc, Event.cout "Saved container into archive successfully"]
        else
          v.emit [Event.save v.dlc, Event.cout "Failed to save container into archive"]
      else v
    let v := v.emit [Event.getInputDimensions]
    match env.inputDimensions with
    | [] => v.stop [] Outcome.undefined
    | [batchSize] =>
      v.stop [Event.cout ("batchSize = " ++ toString batchSize)] Outcome.undefined
    | [batchSize, d1] =>
      v.stop [Event.cout ("batchSize = " ++ toString batchSize), Event.cout (toString d1)]
        Outcome.undefined
    | [batchSize, d1, d2] =>
      v.stop [Event.cout ("batchSize = " ++ toString batchSize), Event.cout (toString d1),
        Event.cout (toString d2)] Outcome.undefined
    | batchSize :: d1 :: d2 :: d3 :: _ =>
      v.stop [Event.cout ("batchSize = " ++ toString batchSize), Event.cout (toString d1),
        Event.cout (toString d2), Event.cout (toString d3),
        Event.preprocessInput v.inputFile batchSize] (Outcome.exit SUCCESS)

/-- Lines 324-344: the container, the UDO packages and the call of
`setBuilderOptions`, then the rest of `main`. -/
def loadAndBuild (env : Env) (v : Vars) (bufferType : BufferType) : Run :=
  let v := v.emit [Event.loadContainerFromFile v.dlc]
  if env.loadContainerFromFile v.dlc = false then
    v.stop [Event.cerr "Error while opening the container file."] (Outcome.exit EXIT_FAILURE)
  else
    let useUserSuppliedBuffers :=
      decide (bufferType = BufferType.USERBUFFER_FLOAT ∨ bufferType = BufferType.USERBUFFER_TF8
        ∨ bufferType = BufferType.USERBUFFER_TF16)
    let platformConfig : PlatformConfig := {}
    let v := v.emit [Event.loadUDOPackage v.UdoPackagePath]
    if env.loadUDOPackage v.UdoPackagePath = false then
      v.stop [Event.cerr "Failed to load UDO Package(s)."] (Outcome.exit EXIT_FAILURE)
    else
      let built := setBuilderOptions env v.runtime v.runtimeList useUserSuppliedBuffers
        platformConfig v.usingInitCaching v.cpuFixedPointMode
      afterBuild env (v.emit built.1) built.2

/-- Lines 306-322: the `-l` with `-r` check and the call of `checkRuntime`,
then the rest of `main`. -/
def selectAndBuild (env : Env) (v : Vars) (bufferType : BufferType)
    (staticQuantization : Bool) : Run :=
  if v.runtimeSpecified ∧ v.runtimeList.isEmpty = false then
    v.stop [Event.cout "Invalid option cannot mix runtime order -l with runtime -r "]
      (Outcome.exit FAILURE)
  else if v.runtimeSpecified then
    loadAndBuild env
      { v.emit [Event.checkRuntime v.runtime staticQuantization] with
          runtime := env.checkRuntime v.runtime staticQuantization }
      bufferType
  else loadAndBuild env v bufferType

/-- Lines 230-377: everything `main` does once the option loop is left. -/
def afterOptions (env : Env) (v : Vars) : Run :=
  if env.fileOpens v.dlc = false ∨ env.fileOpens v.inputFile = false then
    v.stop [Event.cout "Input list or dlc file not valid. Please ensure that you have provided a valid input list and dlc for processing. Run snpe-sample with the -h flag for more details"]
      (Outcome.exit EXIT_FAILURE)
  else
    match bufferTypeOf v.bufferTypeStr with
    | none =>
      v.stop [Event.cout "Buffer type is not valid. Please run snpe-sample with the -h flag for more details"]
        (Outcome.exit EXIT_FAILURE)
    | some bufferType =>
      match userBufferSourceError env bufferType v.userBufferSourceStr with
      | some text => v.stop [Event.cout text] (Outcome.exit EXIT_FAILURE)
      | none =>
        match staticQuantizationOf v.staticQuantizationStr with
        | none =>
          v.stop [Event.cout "Static quantization value is not valid. Please run snpe-sample with the -h flag for more details"]
            (Outcome.exit EXIT_FAILURE)
        | some staticQuantization => selectAndBuild env v bufferType staticQuantization

/-! ## `main` -/

/-- The variables of `main` when the option loop is entered: the defaults
of lines 54-67 after the two logging calls of lines 69-78. -/
def initialVars : Vars :=
  { trace := [Event.initializeLogging, Event.setLogLevel] }

/-- A number of turns that the option loop cannot exceed: every call of
`getopt` that returns an option uses up at least one character of `argv`. -/
def loopFuel (argv : List String) : Nat :=
  (argv.map String.length).sum + 1

/-- The option loop of `main` on the command line `argv` (`argv[0]` is the
program name): the variables when the loop is left, or the run that an
exit inside the loop ends. -/
def parseOptions (env : Env) (argv : List String) : Option (Except Run Vars) :=
  optionLoop env argv (loopFuel argv) {} initialVars

/-- The function `main` on the command line `argv`. -/
def main (env : Env) (argv : List String) : Option Run :=
  match parseOptions env argv with
  | none => none
  | some (Except.error r) => some r
  | some (Except.ok v) => some (afterOptions env v)

/-! ## A concrete environment -/

/-- Modelled from the spec: `split` of `Util.hpp` is not among the sources;
the spec says of it only "split the token list on commas". The characters
between two separators form a token; `cur` holds the token under
construction, last character first. -/
def splitFrom (separator : Char) : List Char → List Char → List String
  | [], cur => [String.mk cur.reverse]
  | c :: cs, cur =>
    if c = separator then String.mk cur.reverse :: splitFrom separator cs []
    else splitFrom separator cs (c :: cur)

/-- Modelled from the spec: the token vector of a separated string. -/
def split (tokenized : String) (separator : Char) : List String :=
  splitFrom separator tokenized.data []

/-- Modelled from the spec: the fixed name table of the SDK's
`RuntimeList::stringToRuntime`, as the spec and the usage text of `main`
(lines 112-125) give it; any other string is `UNSET`. -/
def stringToRuntime (s : String) : Runtime_t :=
  if s = "cpu_float32" then Runtime_t.CPU
  else if s = "gpu_float32_16_hybrid" then Runtime_t.GPU
  else if s = "dsp_fixed8_tf" then Runtime_t.DSP
  else if s = "gpu_float16" then Runtime_t.GPU_FLOAT16
  else if s = "aip_fixed8_tf" then Runtime_t.AIP_FIXED_TF
  else if s = "cpu" then Runtime_t.CPU
  else if s = "gpu" then Runtime_t.GPU
  else if s = "dsp" then Runtime_t.DSP
  else if s = "aip" then Runtime_t.AIP_FIXED_TF
  else Runtime_t.UNSET

/-- An environment in which every file opens, every backend is available,
and loading and building succeed on a network of input shape 1x224x224x3. -/
def sampleEnv : Env where
  split := split
  stringToRuntime := stringToRuntime
  getLastErrorString := ""
  atoi := fun _ => 0
  fileOpens := fun _ => true
  checkRuntime := fun r _ => r
  loadContainerFromFile := fun _ => true
  loadUDOPackage := fun _ => true
  build := fun _ _ _ _ _ => true
  save := fun _ => true
  inputDimensions := [1, 224, 224, 3]
  enableGLBuffer := false
  haveAipRuntime := true

/-- Whether the text `pat` occurs in the text `s`. -/
def occursIn (pat s : String) : Bool :=
  s.data.tails.any fun t => pat.data.isPrefixOf t

/-- The events of a run that are calls of `checkRuntime`, of the container
loader, or of the builder inside `setBuilderOptions`. -/
def Event.isSelectionOrLater : Event → Bool
  | Event.checkRuntime _ _ => true
  | Event.loadContainerFromFile _ => true
  | Event.loadUDOPackage _ => true
  | Event.setOutputLayers => true
  | Event.setRuntimeProcessorOrder _ => true
  | Event.setUseUserSuppliedBuffers _ => true
  | Event.setPlatformConfig _ => true
  | Event.setInitCacheMode _ => true
  | Event.setCpuFixedPointMode _ => true
  | Event.build => true
  | Event.save _ => true
  | Event.getInputDimensions => true
  | Event.preprocessInput _ _ => true
  | _ => false

/-- The events that are calls of `checkRuntime`. -/
def Event.isCheckRuntime : Event → Bool
  | Event.checkRuntime _ _ => true
  | _ => false

/-- The events that are calls on the builder. -/
def Event.isBuilderCall : Event → Bool
  | Event.setOutputLayers => true
  | Event.setRuntimeProcessorOrder _ => true
  | Event.setUseUserSuppliedBuffers _ => true
  | Event.setPlatformConfig _ => true
  | Event.setInitCacheMode _ => true
  | Event.setCpuFixedPointMode _ => true
  | Event.build => true
  | _ => false

/-! ## Auxiliary definitions for the proofs -/

/-- The options that successive calls of `getopt` return on `argv`, from the
scanning state `st`, up to the call that returns `-1`. -/
def optionsFrom (argv : List String) : Nat → GetoptState → List GetoptRet
  | 0, _ => []
  | fuel + 1, st =>
    match getopt argv optstring st with
    | (GetoptRet.done, _) => []
    | (r, st') => r :: optionsFrom argv fuel st'

/-- The options that `getopt` finds on the command line `argv`. -/
def options (argv : List String) : List GetoptRet :=
  optionsFrom argv (loopFuel argv) {}

/-- The number of characters in the words of `argv` from index `i` on. -/
def restLength (argv : List String) (i : Nat) : Nat :=
  ((argv.drop i).map String.length).sum

/-- The number of characters `getopt` has not yet passed. -/
def getoptMeasure (argv : List String) (st : GetoptState) : Nat :=
  match st.place with
  | [] => restLength argv st.optind
  | _ :: cs => cs.length + 1 + restLength argv (st.optind + 1)

/-- The events written for the resolution of the tokens `toks`. -/
def resolveEvents (toks : List String) : List Event :=
  toks.map Event.stringToRuntime

/-! ## The command line as `getopt` reads it -/

/-- The option character of a value returned by `getopt`. -/
def optChar : GetoptRet → Option Char
  | GetoptRet.opt c _ => some c
  | _ => none

/-- The argument of a value returned by `getopt`, when it is the option `c`
with an argument. -/
def argOf (c : Char) : GetoptRet → Option String
  | GetoptRet.opt c' (some a) => if c' = c then some a else none
  | _ => none

/-- The argument of the last occurrence of the option `c` among the options
`opts`, `none` when the option does not occur with an argument. -/
def lastArg (c : Char) : List GetoptRet → Option String
  | [] => none
  | o :: opts =>
    match lastArg c opts with
    | some a => some a
    | none => argOf c o

/-- Whether the option `c` occurs among the options `opts`. -/
def hasOption (c : Char) (opts : List GetoptRet) : Bool :=
  opts.any fun o => decide (optChar o = some c)

/-- Whether `case 'l'` accepts the argument `s`: its token vector is not
empty and its tokens resolve, to pairwise distinct backend ids (the tokens
are then pairwise distinct as well). -/
def listAccepted (env : Env) (s : String) : Bool :=
  decide (env.split s ',' ≠ []
    ∧ (∀ t ∈ env.split s ',', env.stringToRuntime t ≠ Runtime_t.UNSET)
    ∧ ((env.split s ',').map env.stringToRuntime).Nodup)

/-- Whether the loop goes on after an option: it is an option of the option
string (not `'?'`), it is not `-h`, and if it is `-l` its list is accepted. -/
def optionAccepted (env : Env) : GetoptRet → Bool
  | GetoptRet.opt c (some a) => decide (c ≠ 'h') && (decide (c ≠ 'l') || listAccepted env a)
  | GetoptRet.opt c none => decide (c ≠ 'h')
  | _ => false

/-- The variables `v'` hold what the options `opts` make of the variables
`v`, setting by setting (the trace and the single runtime apart): an option
with an argument leaves the argument of its last occurrence, `-l` the
resolved ids of its last list, and `-r`, `-c` and `-x` set their flag. -/
def Summarises (env : Env) (opts : List GetoptRet) (v v' : Vars) : Prop :=
  v'.dlc = (lastArg 'd' opts).getD v.dlc
  ∧ v'.inputFile = (lastArg 'i' opts).getD v.inputFile
  ∧ v'.OutputDir = (lastArg 'o' opts).getD v.OutputDir
  ∧ v'.bufferTypeStr = (lastArg 'b' opts).getD v.bufferTypeStr
  ∧ v'.userBufferSourceStr = (lastArg 's' opts).getD v.userBufferSourceStr
  ∧ v'.staticQuantizationStr = (lastArg 'q' opts).getD v.staticQuantizationStr
  ∧ v'.UdoPackagePath = (lastArg 'u' opts).getD v.UdoPackagePath
  ∧ v'.runtimeList
      = ((lastArg 'l' opts).map fun s => (env.split s ',').map env.stringToRuntime).getD
          v.runtimeList
  ∧ v'.runtimeSpecified = (v.runtimeSpecified || hasOption 'r' opts)
  ∧ v'.usingInitCaching = (v.usingInitCaching || hasOption 'c' opts)
  ∧ v'.cpuFixedPointMode = (v.cpuFixedPointMode || hasOption 'x' opts)

/-- An environment with the function `split` modelled from the spec. -/
def withSpecSplit (env : Env) : Env :=
  { env with split := split }

end SnpeSample

/-! # Theorems -/

namespace SnpeSample
open Runtime_t

/-! ## Termination of the option loop -/

theorem restLength_succ_le (argv : List String) (i : Nat) :
    restLength argv (i + 1) ≤ restLength argv i := by
  induction argv generalizing i with
  | nil => simp [restLength]
  | cons w t ih =>
    cases i with
    | zero => simp [restLength]
    | succ j =>
      have := ih j
      simpa [restLength] using this

theorem restLength_of_getElem (argv : List String) (i : Nat) (w : String)
    (h : argv[i]? = some w) :
    restLength argv i = w.length + restLength argv (i + 1) := by
  unfold restLength
  obtain ⟨hi, hw⟩ := List.getElem?_eq_some_iff.mp h
  rw [List.drop_eq_getElem_cons hi, hw]
  simp

theorem getoptChar_measure (argv : List String) (opts : String) (optind : Nat)
    (c : Char) (cs : List Char) :
    getoptMeasure argv (getoptChar argv opts optind c cs).2
      ≤ cs.length + restLength argv (optind + 1) := by
  have hle : restLength argv (optind + 2) ≤ restLength argv (optind + 1) :=
    restLength_succ_le argv (optind + 1)
  unfold getoptChar
  split
  · cases cs with
    | nil => simp [getoptMeasure]
    | cons a as => simp [getoptMeasure]
  · cases cs with
    | nil => simp [getoptMeasure]
    | cons a as => simp [getoptMeasure]
  · split
    · simp [getoptMeasure]
    · split
      · simp [getoptMeasure]; omega
      · simp [getoptMeasure]

theorem getopt_measure (argv : List String) (opts : String) (st : GetoptState)
    (h : (getopt argv opts st).1 ≠ GetoptRet.done) :
    getoptMeasure argv (getopt argv opts st).2 < getoptMeasure argv st := by
  unfold getopt at h ⊢
  split at h
  · next c cs hp =>
    have := getoptChar_measure argv opts st.optind c cs
    have hm : getoptMeasure argv st = cs.length + 1 + restLength argv (st.optind + 1) := by
      simp [getoptMeasure, hp]
    omega
  · next hp =>
    split at h
    · exact absurd rfl h
    · next w hw =>
      split at h
      · next c cs hd =>
        have hlen : w.length = cs.length + 2 := by
          show w.data.length = _
          rw [hd]; simp
        have hrest := restLength_of_getElem argv st.optind w hw
        split at h
        · exact absurd rfl h
        · next hne =>
          rw [if_neg hne]
          have := getoptChar_measure argv opts st.optind c cs
          have hm : getoptMeasure argv st = restLength argv st.optind := by
            simp [getoptMeasure, hp]
          omega
      · exact absurd rfl h

theorem optionLoop_isSome (env : Env) (argv : List String) :
    ∀ (fuel : Nat) (st : GetoptState) (v : Vars), getoptMeasure argv st < fuel →
      ∃ r, optionLoop env argv fuel st v = some r := by
  intro fuel
  induction fuel with
  | zero => intro st v h; omega
  | succ n ih =>
    intro st v h
    unfold optionLoop iteration
    have hm := getopt_measure argv optstring st
    generalize getopt argv optstring st = g at hm
    obtain ⟨r, st'⟩ := g
    cases r with
    | done => exact ⟨_, rfl⟩
    | bad =>
      simp only
      cases switchOpt env argv st'.optind GetoptRet.bad v with
      | error run => exact ⟨_, rfl⟩
      | ok v' => exact ih st' v' (by have := hm (by simp); simp at this; omega)
    | opt c a =>
      simp only
      cases switchOpt env argv st'.optind (GetoptRet.opt c a) v with
      | error run => exact ⟨_, rfl⟩
      | ok v' => exact ih st' v' (by have := hm (by simp); simp at this; omega)

theorem initial_measure_lt (argv : List String) :
    getoptMeasure argv {} < loopFuel argv := by
  have h1 : restLength argv 1 ≤ restLength argv 0 := restLength_succ_le argv 0
  have h0 : restLength argv 0 = (argv.map String.length).sum := by simp [restLength]
  have hm : getoptMeasure argv {} = restLength argv 1 := by simp [getoptMeasure]
  unfold loopFuel
  omega

theorem parseOptions_isSome (env : Env) (argv : List String) :
    ∃ r, parseOptions env argv = some r :=
  optionLoop_isSome env argv _ _ _ (initial_measure_lt argv)

theorem main_isSome (env : Env) (argv : List String) :
    ∃ r, main env argv = some r := by
  obtain ⟨r, hr⟩ := parseOptions_isSome env argv
  unfold main
  rw [hr]
  cases r with
  | error run => exact ⟨_, rfl⟩
  | ok v => exact ⟨_, rfl⟩

theorem optionLoop_mono (env : Env) (argv : List String) (k : Nat) :
    ∀ (fuel : Nat) (st : GetoptState) (v : Vars) (r : Except Run Vars),
      optionLoop env argv fuel st v = some r →
      optionLoop env argv (fuel + k) st v = some r := by
  intro fuel
  induction fuel with
  | zero => intro st v r h; simp [optionLoop] at h
  | succ n ih =>
    intro st v r h
    rw [show n + 1 + k = (n + k) + 1 by omega]
    unfold optionLoop at h ⊢
    cases hit : iteration env argv st v with
    | none => rw [hit] at h; simpa using h
    | some p =>
      obtain ⟨res, st'⟩ := p
      rw [hit] at h
      cases res with
      | error run => simpa using h
      | ok v' => exact ih st' v' r h

/-- A property of the variables that every turn of the loop body keeps, and
a property of runs that every exit inside the body establishes, hold when
the loop is over. -/
theorem optionLoop_invariant (env : Env) (argv : List String)
    (P : Vars → Prop) (Q : Run → Prop)
    (hok : ∀ optind r v v', P v → switchOpt env argv optind r v = Except.ok v' → P v')
    (herr : ∀ optind r v run, P v → switchOpt env argv optind r v = Except.error run → Q run) :
    ∀ (fuel : Nat) (st : GetoptState) (v : Vars), P v →
      (∀ v', optionLoop env argv fuel st v = some (Except.ok v') → P v') ∧
      (∀ run, optionLoop env argv fuel st v = some (Except.error run) → Q run) := by
  intro fuel
  induction fuel with
  | zero => intro st v _; simp [optionLoop]
  | succ n ih =>
    intro st v hv
    unfold optionLoop iteration
    generalize getopt argv optstring st = g
    obtain ⟨r, st'⟩ := g
    cases r with
    | done => simp; exact hv
    | bad =>
      simp only
      cases hsw : switchOpt env argv st'.optind GetoptRet.bad v with
      | error run =>
        simp
        exact herr _ _ _ _ hv hsw
      | ok v' => exact ih st' v' (hok _ _ _ _ hv hsw)
    | opt c a =>
      simp only
      cases hsw : switchOpt env argv st'.optind (GetoptRet.opt c a) v with
      | error run =>
        simp
        exact herr _ _ _ _ hv hsw
      | ok v' => exact ih st' v' (hok _ _ _ _ hv hsw)

/-! ## The `-l` handler -/

theorem add_of_not_mem (l : RuntimeList) (r : Runtime_t) (h : r ∉ l) :
    RuntimeList.add l r = (l ++ [r], true) := by
  simp [RuntimeList.add, h]

theorem add_of_mem (l : RuntimeList) (r : Runtime_t) (h : r ∈ l) :
    RuntimeList.add l r = (l, false) := by
  simp [RuntimeList.add, h]

theorem resolveLoop_unknown (env : Env) (arg : String) (bad : String) (post : List String)
    (v : Vars) (hbad : env.stringToRuntime bad = UNSET) :
    resolveLoop env arg (bad :: post) v
      = Except.error ⟨v.trace ++ [Event.stringToRuntime bad, Event.cerr (unknownMessage arg)],
          Outcome.exit 1⟩ := by
  simp [resolveLoop, hbad, Vars.stop, Vars.emit, FAILURE]

theorem resolveLoop_addFailed (env : Env) (arg : String) (x : String) (post : List String)
    (v : Vars) (hx : env.stringToRuntime x ≠ UNSET) (hmem : env.stringToRuntime x ∈ v.runtimeList) :
    resolveLoop env arg (x :: post) v
      = Except.error ⟨v.trace ++ [Event.stringToRuntime x, Event.cerr env.getLastErrorString,
          Event.cerr (addFailedMessage arg)], Outcome.exit 1⟩ := by
  have hadd := add_of_mem v.runtimeList _ hmem
  simp [resolveLoop, hx, Vars.stop, Vars.emit, FAILURE, hadd]

theorem resolveLoop_cons_ok (env : Env) (arg : String) (x : String) (post : List String)
    (v : Vars) (hx : env.stringToRuntime x ≠ UNSET) (hmem : env.stringToRuntime x ∉ v.runtimeList) :
    resolveLoop env arg (x :: post) v
      = resolveLoop env arg post
          { v with trace := v.trace ++ [Event.stringToRuntime x],
                   runtimeList := v.runtimeList ++ [env.stringToRuntime x] } := by
  have hadd := add_of_not_mem v.runtimeList _ hmem
  simp [resolveLoop, hx, Vars.emit, hadd]

/-- Tokens that all resolve, to ids that are new and pairwise distinct, are
appended to the runtime list in order. -/
theorem resolveLoop_ok (env : Env) (arg : String) :
    ∀ (toks : List String) (v : Vars),
      (∀ t ∈ toks, env.stringToRuntime t ≠ UNSET) →
      (v.runtimeList ++ toks.map env.stringToRuntime).Nodup →
      resolveLoop env arg toks v
        = Except.ok { v with trace := v.trace ++ resolveEvents toks,
                             runtimeList := v.runtimeList ++ toks.map env.stringToRuntime } := by
  intro toks
  induction toks with
  | nil => intro v _ _; simp [resolveLoop, resolveEvents]
  | cons x rest ih =>
    intro v hres hnd
    have hx : env.stringToRuntime x ≠ UNSET := hres x (by simp)
    have hmem : env.stringToRuntime x ∉ v.runtimeList := by
      intro hin
      have := (List.nodup_append.mp hnd).2.2
      exact this hin (by simp) 
    rw [resolveLoop_cons_ok env arg x rest v hx hmem]
    rw [ih _ (fun t ht => hres t (by simp [ht])) (by simpa using hnd)]
    simp [resolveEvents]

/-- What a completed resolution loop has done. -/
theorem resolveLoop_result (env : Env) (arg : String) :
    ∀ (toks : List String) (v v' : Vars),
      resolveLoop env arg toks v = Except.ok v' →
      v' = { v with trace := v.trace ++ resolveEvents toks,
                    runtimeList := v.runtimeList ++ toks.map env.stringToRuntime }
      ∧ (∀ t ∈ toks, env.stringToRuntime t ≠ UNSET)
      ∧ (v.runtimeList.Nodup → (v.runtimeList ++ toks.map env.stringToRuntime).Nodup) := by
  intro toks
  induction toks with
  | nil =>
    intro v v' h
    simp [resolveLoop] at h
    subst h
    simp [resolveEvents]
  | cons x rest ih =>
    intro v v' h
    by_cases hx : env.stringToRuntime x = UNSET
    · rw [resolveLoop_unknown env arg x rest v hx] at h
      exact absurd h (by simp)
    · by_cases hmem : env.stringToRuntime x ∈ v.runtimeList
      · rw [resolveLoop_addFailed env arg x rest v hx hmem] at h
        exact absurd h (by simp)
      · rw [resolveLoop_cons_ok env arg x rest v hx hmem] at h
        obtain ⟨h1, h2, h3⟩ := ih _ _ h
        refine ⟨?_, ?_, ?_⟩
        · rw [h1]; simp [resolveEvents]
        · intro t ht
          rcases List.mem_cons.mp ht with rfl | ht
          · exact hx
          · exact h2 t ht
        · intro hnd
          have : (v.runtimeList ++ [env.stringToRuntime x]).Nodup := by
            rw [List.nodup_append]
            refine ⟨hnd, by simp, ?_⟩
            intro a ha hb
            simp at hb
            subst hb
            exact hmem ha
          simpa using h3 this

/-- How a resolution loop that ends the run has ended it. -/
theorem resolveLoop_error (env : Env) (arg : String) :
    ∀ (toks : List String) (v : Vars) (run : Run),
      resolveLoop env arg toks v = Except.error run →
      run.outcome = Outcome.exit 1
      ∧ (∃ es, run.trace = v.trace ++ es ∧ ∀ e ∈ es, e.isSelectionOrLater = false)
      ∧ ((run.trace.getLast? = some (Event.cerr (unknownMessage arg))
            ∧ ∃ t ∈ toks, env.stringToRuntime t = UNSET)
          ∨ (run.trace.getLast? = some (Event.cerr (addFailedMessage arg))
            ∧ ¬ (v.runtimeList ++ toks.map env.stringToRuntime).Nodup)) := by
  intro toks
  induction toks with
  | nil => intro v run h; simp [resolveLoop] at h
  | cons x rest ih =>
    intro v run h
    by_cases hx : env.stringToRuntime x = UNSET
    · rw [resolveLoop_unknown env arg x rest v hx] at h
      simp at h
      subst h
      refine ⟨rfl, ⟨_, rfl, by simp [Event.isSelectionOrLater]⟩, Or.inl ⟨by simp, x, by simp, hx⟩⟩
    · by_cases hmem : env.stringToRuntime x ∈ v.runtimeList
      · rw [resolveLoop_addFailed env arg x rest v hx hmem] at h
        simp at h
        subst h
        refine ⟨rfl, ⟨_, rfl, by simp [Event.isSelectionOrLater]⟩, Or.inr ⟨by simp, ?_⟩⟩
        intro hnd
        have := (List.nodup_append.mp hnd).2.2
        exact this hmem (by simp)
      · rw [resolveLoop_cons_ok env arg x rest v hx hmem] at h
        obtain ⟨h1, ⟨es, hes, hsel⟩, h3⟩ := ih _ _ h
        refine ⟨h1, ⟨Event.stringToRuntime x :: es, by simpa using hes, ?_⟩, ?_⟩
        · intro e he
          rcases List.mem_cons.mp he with rfl | he
          · rfl
          · exact hsel e he
        · rcases h3 with ⟨hl, t, ht, htu⟩ | ⟨hl, hnd⟩
          · exact Or.inl ⟨hl, t, by simp [ht], htu⟩
          · exact Or.inr ⟨hl, by simpa using hnd⟩

theorem dupLoop_eq_true_iff : ∀ (t : String) (rest : List String),
    dupLoop t rest = true ↔ ¬ (t :: rest).Nodup := by
  intro t rest
  induction rest generalizing t with
  | nil => simp [dupLoop]
  | cons u rest ih =>
    unfold dupLoop
    by_cases hmem : t ∈ u :: rest
    · simp only [hmem, if_true, true_iff]
      intro hnd
      exact (List.nodup_cons.mp hnd).1 hmem
    · simp only [hmem, if_false]
      rw [ih u]
      constructor
      · intro h hnd
        exact h (List.nodup_cons.mp hnd).2
      · intro h hnd
        exact h (List.nodup_cons.mpr ⟨hmem, hnd⟩)

theorem checkDups_of_not_nodup (toks : List String) (h : ¬ toks.Nodup) :
    checkDups toks = some true := by
  cases toks with
  | nil => simp at h
  | cons t rest =>
    simp only [checkDups]
    rw [(dupLoop_eq_true_iff t rest).mpr h]

theorem checkDups_of_nodup (toks : List String) (hne : toks ≠ []) (h : toks.Nodup) :
    checkDups toks = some false := by
  cases toks with
  | nil => exact absurd rfl hne
  | cons t rest =>
    simp only [checkDups]
    cases hd : dupLoop t rest with
    | false => rfl
    | true => exact absurd h ((dupLoop_eq_true_iff t rest).mp hd)

/-- A token vector with a repeated token ends the run in the duplicate
check, before the resolution loop. -/
theorem caseL_dup (env : Env) (arg s : String) (v : Vars)
    (h : ¬ (env.split s ',').Nodup) :
    caseL env arg s v
      = Except.error ⟨v.trace ++ [Event.cout ("Input String: " ++ s),
          Event.cerr (dupMessage arg)], Outcome.exit 1⟩ := by
  simp [caseL, checkDups_of_not_nodup _ h, Vars.stop, Vars.emit, FAILURE]

/-- A non-empty token vector without a repeated token reaches the
resolution loop, which starts from the cleared runtime list. -/
theorem caseL_nodup (env : Env) (arg s : String) (v : Vars)
    (hne : env.split s ',' ≠ []) (h : (env.split s ',').Nodup) :
    caseL env arg s v
      = resolveLoop env arg (env.split s ',')
          { v with trace := v.trace ++ [Event.cout ("Input String: " ++ s)],
                   runtimeList := [] } := by
  simp [caseL, checkDups_of_nodup _ hne h, Vars.emit]

theorem caseL_empty (env : Env) (arg s : String) (v : Vars)
    (h : env.split s ',' = []) :
    caseL env arg s v
      = Except.error ⟨v.trace ++ [Event.cout ("Input String: " ++ s)], Outcome.undefined⟩ := by
  simp [caseL, h, checkDups, Vars.stop, Vars.emit]

/-- What `case 'l'` leaves behind when the loop goes on. -/
theorem caseL_result (env : Env) (arg s : String) (v v' : Vars)
    (h : caseL env arg s v = Except.ok v') :
    v' = { v with trace := v.trace ++ Event.cout ("Input String: " ++ s)
                      :: resolveEvents (env.split s ','),
                  runtimeList := (env.split s ',').map env.stringToRuntime }
    ∧ ((env.split s ',').map env.stringToRuntime).Nodup
    ∧ env.split s ',' ≠ [] := by
  by_cases hne : env.split s ',' = []
  · rw [caseL_empty env arg s v hne] at h
    exact absurd h (by simp)
  · by_cases hnd : (env.split s ',').Nodup
    · rw [caseL_nodup env arg s v hne hnd] at h
      obtain ⟨h1, _, h3⟩ := resolveLoop_result env arg _ _ _ h
      refine ⟨by rw [h1]; simp, by simpa using h3 (by simp), hne⟩
    · rw [caseL_dup env arg s v hnd] at h
      exact absurd h (by simp)

/-- How `case 'l'` ends a run. -/
theorem caseL_error (env : Env) (arg s : String) (v : Vars) (run : Run)
    (h : caseL env arg s v = Except.error run) :
    (run.outcome = Outcome.exit 1 ∨ run.outcome = Outcome.undefined)
    ∧ ∃ es, run.trace = v.trace ++ es ∧ ∀ e ∈ es, e.isSelectionOrLater = false := by
  by_cases hne : env.split s ',' = []
  · rw [caseL_empty env arg s v hne] at h
    simp at h
    subst h
    exact ⟨Or.inr rfl, _, rfl, by simp [Event.isSelectionOrLater]⟩
  · by_cases hnd : (env.split s ',').Nodup
    · rw [caseL_nodup env arg s v hne hnd] at h
      obtain ⟨h1, ⟨es, hes, hsel⟩, _⟩ := resolveLoop_error env arg _ _ _ h
      refine ⟨Or.inl h1, Event.cout ("Input String: " ++ s) :: es, by simpa using hes, ?_⟩
      intro e he
      rcases List.mem_cons.mp he with rfl | he
      · rfl
      · exact hsel e he
    · rw [caseL_dup env arg s v hnd] at h
      simp at h
      subst h
      exact ⟨Or.inl rfl, _, rfl, by simp [Event.isSelectionOrLater]⟩

/-! ## The loop body -/

theorem caseR_frame (a : String) (v : Vars) :
    (caseR a v).runtimeSpecified = true
    ∧ (caseR a v).runtimeList = v.runtimeList
    ∧ ∃ es, (caseR a v).trace = v.trace ++ es ∧ ∀ e ∈ es, e.isSelectionOrLater = false := by
  unfold caseR
  split_ifs
  · exact ⟨rfl, rfl, [], by simp, by simp⟩
  · exact ⟨rfl, rfl, [], by simp, by simp⟩
  · exact ⟨rfl, rfl, [], by simp, by simp⟩
  · exact ⟨rfl, rfl, [], by simp, by simp⟩
  · exact ⟨rfl, rfl, _, rfl, by simp [Event.isSelectionOrLater]⟩

theorem switchArg_ok (env : Env) (argv : List String) (optind : Nat) (c : Char) (a : String)
    (v v' : Vars) (h : switchArg env argv optind c a v = Except.ok v') :
    (∃ es, v'.trace = v.trace ++ es ∧ ∀ e ∈ es, e.isSelectionOrLater = false)
    ∧ (v.runtimeList.Nodup → v'.runtimeList.Nodup)
    ∧ (v.runtimeSpecified = true → v'.runtimeSpecified = true) := by
  unfold switchArg at h
  by_cases h1 : c = 'i'
  · rw [if_pos h1] at h; cases h; exact ⟨⟨[], by simp, by simp⟩, id, id⟩
  rw [if_neg h1] at h
  by_cases h2 : c = 'd'
  · rw [if_pos h2] at h; cases h; exact ⟨⟨[], by simp, by simp⟩, id, id⟩
  rw [if_neg h2] at h
  by_cases h3 : c = 'o'
  · rw [if_pos h3] at h; cases h; exact ⟨⟨[], by simp, by simp⟩, id, id⟩
  rw [if_neg h3] at h
  by_cases h4 : c = 'b'
  · rw [if_pos h4] at h; cases h; exact ⟨⟨[], by simp, by simp⟩, id, id⟩
  rw [if_neg h4] at h
  by_cases h5 : c = 'q'
  · rw [if_pos h5] at h; cases h; exact ⟨⟨[], by simp, by simp⟩, id, id⟩
  rw [if_neg h5] at h
  by_cases h6 : c = 's'
  · rw [if_pos h6] at h; cases h; exact ⟨⟨[], by simp, by simp⟩, id, id⟩
  rw [if_neg h6] at h
  by_cases h7 : c = 'z'
  · rw [if_pos h7] at h; cases h
    exact ⟨⟨_, rfl, by simp [Event.isSelectionOrLater]⟩, id, id⟩
  rw [if_neg h7] at h
  by_cases h8 : c = 'r'
  · rw [if_pos h8] at h; cases h
    obtain ⟨h1, h2, h3⟩ := caseR_frame a v
    exact ⟨h3, by rw [h2]; exact id, fun _ => h1⟩
  rw [if_neg h8] at h
  by_cases h9 : c = 'l'
  · rw [if_pos h9] at h
    obtain ⟨h1, h2, _⟩ := caseL_result env _ a v v' h
    refine ⟨⟨_, by rw [h1], ?_⟩, fun _ => by rw [h1]; exact h2, by rw [h1]; exact id⟩
    intro e he
    rcases List.mem_cons.mp he with rfl | he
    · rfl
    · simp only [resolveEvents, List.mem_map] at he
      obtain ⟨t, _, rfl⟩ := he
      rfl
  rw [if_neg h9] at h
  by_cases h10 : c = 'c'
  · rw [if_pos h10] at h; cases h; exact ⟨⟨[], by simp, by simp⟩, id, id⟩
  rw [if_neg h10] at h
  by_cases h11 : c = 'u'
  · rw [if_pos h11] at h; cases h; exact ⟨⟨[], by simp, by simp⟩, id, id⟩
  rw [if_neg h11] at h
  by_cases h12 : c = 'x'
  · rw [if_pos h12] at h; cases h; exact ⟨⟨[], by simp, by simp⟩, id, id⟩
  rw [if_neg h12] at h
  cases h


theorem switchArg_error (env : Env) (argv : List String) (optind : Nat) (c : Char)
    (a : String) (v : Vars) (run : Run)
    (h : switchArg env argv optind c a v = Except.error run) :
    ∃ es, run.trace = v.trace ++ es ∧ ∀ e ∈ es, e.isSelectionOrLater = false := by
  unfold switchArg at h
  by_cases h1 : c = 'i'
  · rw [if_pos h1] at h; cases h
  rw [if_neg h1] at h
  by_cases h2 : c = 'd'
  · rw [if_pos h2] at h; cases h
  rw [if_neg h2] at h
  by_cases h3 : c = 'o'
  · rw [if_pos h3] at h; cases h
  rw [if_neg h3] at h
  by_cases h4 : c = 'b'
  · rw [if_pos h4] at h; cases h
  rw [if_neg h4] at h
  by_cases h5 : c = 'q'
  · rw [if_pos h5] at h; cases h
  rw [if_neg h5] at h
  by_cases h6 : c = 's'
  · rw [if_pos h6] at h; cases h
  rw [if_neg h6] at h
  by_cases h7 : c = 'z'
  · rw [if_pos h7] at h; cases h
  rw [if_neg h7] at h
  by_cases h8 : c = 'r'
  · rw [if_pos h8] at h; cases h
  rw [if_neg h8] at h
  by_cases h9 : c = 'l'
  · rw [if_pos h9] at h
    exact (caseL_error env _ a v run h).2
  rw [if_neg h9] at h
  by_cases h10 : c = 'c'
  · rw [if_pos h10] at h; cases h
  rw [if_neg h10] at h
  by_cases h11 : c = 'u'
  · rw [if_pos h11] at h; cases h
  rw [if_neg h11] at h
  by_cases h12 : c = 'x'
  · rw [if_pos h12] at h; cases h
  rw [if_neg h12] at h
  cases h
  exact ⟨_, rfl, by simp [Event.isSelectionOrLater]⟩

/-- A turn of the loop body after which the loop goes on: the trace has
grown by events that precede runtime selection, the runtime list has stayed
free of repetitions, and `runtimeSpecified` has not been reset. -/
theorem switchOpt_ok (env : Env) (argv : List String) (optind : Nat) (r : GetoptRet)
    (v v' : Vars) (h : switchOpt env argv optind r v = Except.ok v') :
    (∃ es, v'.trace = v.trace ++ es ∧ ∀ e ∈ es, e.isSelectionOrLater = false)
    ∧ (v.runtimeList.Nodup → v'.runtimeList.Nodup)
    ∧ (v.runtimeSpecified = true → v'.runtimeSpecified = true) := by
  cases r with
  | done => cases h
  | bad => cases h
  | opt c a =>
    cases a with
    | some a =>
      simp only [switchOpt] at h
      by_cases hh : c = 'h'
      · rw [if_pos hh] at h; cases h
      · rw [if_neg hh] at h
        exact switchArg_ok env argv optind c a v v' h
    | none =>
      simp only [switchOpt] at h
      by_cases hh : c = 'h'
      · rw [if_pos hh] at h; cases h
      rw [if_neg hh] at h
      by_cases hc : c = 'c'
      · rw [if_pos hc] at h; cases h; exact ⟨⟨[], by simp, by simp⟩, id, id⟩
      rw [if_neg hc] at h
      by_cases hx : c = 'x'
      · rw [if_pos hx] at h; cases h; exact ⟨⟨[], by simp, by simp⟩, id, id⟩
      rw [if_neg hx] at h
      split_ifs at h

/-- A turn of the loop body that ends the run: the trace has grown by
events that precede runtime selection. -/
theorem switchOpt_error (env : Env) (argv : List String) (optind : Nat) (r : GetoptRet)
    (v : Vars) (run : Run) (h : switchOpt env argv optind r v = Except.error run) :
    ∃ es, run.trace = v.trace ++ es ∧ ∀ e ∈ es, e.isSelectionOrLater = false := by
  cases r with
  | done => cases h; exact ⟨_, rfl, by simp [Event.isSelectionOrLater]⟩
  | bad => cases h; exact ⟨_, rfl, by simp [Event.isSelectionOrLater]⟩
  | opt c a =>
    cases a with
    | some a =>
      simp only [switchOpt] at h
      by_cases hh : c = 'h'
      · rw [if_pos hh] at h; cases h
        exact ⟨_, rfl, by simp [Event.isSelectionOrLater]⟩
      · rw [if_neg hh] at h
        exact switchArg_error env argv optind c a v run h
    | none =>
      simp only [switchOpt] at h
      by_cases hh : c = 'h'
      · rw [if_pos hh] at h; cases h
        exact ⟨_, rfl, by simp [Event.isSelectionOrLater]⟩
      rw [if_neg hh] at h
      by_cases hc : c = 'c'
      · rw [if_pos hc] at h; cases h
      rw [if_neg hc] at h
      by_cases hx : c = 'x'
      · rw [if_pos hx] at h; cases h
      rw [if_neg hx] at h
      split_ifs at h
      · cases h; exact ⟨[], by simp [Vars.stop], by simp⟩
      · cases h; exact ⟨_, rfl, by simp [Event.isSelectionOrLater]⟩
/-! ## Invariants of the option loop -/

/-- When the option loop is left, no event of runtime selection or later
has happened, and the runtime list has no repeated id. -/
theorem optionLoop_ok_invariant (env : Env) (argv : List String) (fuel : Nat)
    (st : GetoptState) (v v' : Vars)
    (hsel : ∀ e ∈ v.trace, e.isSelectionOrLater = false) (hnd : v.runtimeList.Nodup)
    (h : optionLoop env argv fuel st v = some (Except.ok v')) :
    (∀ e ∈ v'.trace, e.isSelectionOrLater = false) ∧ v'.runtimeList.Nodup := by
  refine (optionLoop_invariant env argv
    (fun w => (∀ e ∈ w.trace, e.isSelectionOrLater = false) ∧ w.runtimeList.Nodup)
    (fun _ => True) ?_ ?_ fuel st v ⟨hsel, hnd⟩).1 v' h
  · intro optind r w w' hw hsw
    obtain ⟨⟨es, hes, hsel'⟩, hnd', _⟩ := switchOpt_ok env argv optind r w w' hsw
    refine ⟨?_, hnd' hw.2⟩
    intro e he
    rw [hes] at he
    rcases List.mem_append.mp he with he | he
    · exact hw.1 e he
    · exact hsel' e he
  · intros; trivial

/-- A run that ends inside the option loop has no event of runtime
selection or later. -/
theorem optionLoop_error_invariant (env : Env) (argv : List String) (fuel : Nat)
    (st : GetoptState) (v : Vars) (run : Run)
    (hsel : ∀ e ∈ v.trace, e.isSelectionOrLater = false)
    (h : optionLoop env argv fuel st v = some (Except.error run)) :
    ∀ e ∈ run.trace, e.isSelectionOrLater = false := by
  refine (optionLoop_invariant env argv
    (fun w => ∀ e ∈ w.trace, e.isSelectionOrLater = false)
    (fun r => ∀ e ∈ r.trace, e.isSelectionOrLater = false) ?_ ?_ fuel st v hsel).2 run h
  · intro optind r w w' hw hsw
    obtain ⟨⟨es, hes, hsel'⟩, _, _⟩ := switchOpt_ok env argv optind r w w' hsw
    intro e he
    rw [hes] at he
    rcases List.mem_append.mp he with he | he
    · exact hw e he
    · exact hsel' e he
  · intro optind r w run' hw hsw
    obtain ⟨es, hes, hsel'⟩ := switchOpt_error env argv optind r w run' hsw
    intro e he
    rw [hes] at he
    rcases List.mem_append.mp he with he | he
    · exact hw e he
    · exact hsel' e he

theorem initialVars_noSelection : ∀ e ∈ initialVars.trace, e.isSelectionOrLater = false := by
  intro e he
  simp [initialVars] at he
  rcases he with rfl | rfl <;> rfl

theorem parseOptions_ok_invariant (env : Env) (argv : List String) (v : Vars)
    (h : parseOptions env argv = some (Except.ok v)) :
    (∀ e ∈ v.trace, e.isSelectionOrLater = false) ∧ v.runtimeList.Nodup :=
  optionLoop_ok_invariant env argv _ _ _ _ initialVars_noSelection (by simp [initialVars]) h

theorem parseOptions_error_invariant (env : Env) (argv : List String) (run : Run)
    (h : parseOptions env argv = some (Except.error run)) :
    ∀ e ∈ run.trace, e.isSelectionOrLater = false :=
  optionLoop_error_invariant env argv _ _ _ _ initialVars_noSelection h

/-- When the loop is left after `getopt` has returned `-r`, the variable
`runtimeSpecified` is set. -/
theorem optionLoop_runtimeSpecified (env : Env) (argv : List String) :
    ∀ (fuel : Nat) (st : GetoptState) (v v' : Vars),
      optionLoop env argv fuel st v = some (Except.ok v') →
      (v.runtimeSpecified = true ∨ ∃ a, GetoptRet.opt 'r' (some a) ∈ optionsFrom argv fuel st) →
      v'.runtimeSpecified = true := by
  intro fuel
  induction fuel with
  | zero => intro st v v' h; simp [optionLoop] at h
  | succ n ih =>
    intro st v v' h hr
    unfold optionLoop iteration at h
    unfold optionsFrom at hr
    generalize getopt argv optstring st = g at h hr
    obtain ⟨r, st'⟩ := g
    cases r with
    | done =>
      simp at h hr
      subst h
      exact hr
    | bad =>
      simp only at h hr
      have hsw : switchOpt env argv st'.optind GetoptRet.bad v
          = Except.error (v.stop [Event.cout "Invalid parameter specified. Please run snpe-sample with the -h flag to see required arguments"]
              (Outcome.exit FAILURE)) := rfl
      rw [hsw] at h
      simp at h
    | opt c a =>
      simp only at h hr
      cases hsw : switchOpt env argv st'.optind (GetoptRet.opt c a) v with
      | error run => rw [hsw] at h; simp at h
      | ok w =>
        rw [hsw] at h
        refine ih st' w v' h ?_
        rcases hr with hr | ⟨b, hb⟩
        · exact Or.inl ((switchOpt_ok env argv _ _ v w hsw).2.2 hr)
        · rcases List.mem_cons.mp hb with hb | hb
          · left
            cases hb
            simp only [switchOpt] at hsw
            rw [if_neg (by decide)] at hsw
            unfold switchArg at hsw
            simp at hsw
            subst hsw
            exact (caseR_frame b v).1
          · exact Or.inr ⟨b, hb⟩

theorem parseOptions_runtimeSpecified (env : Env) (argv : List String) (v : Vars) (a : String)
    (h : parseOptions env argv = some (Except.ok v))
    (hr : GetoptRet.opt 'r' (some a) ∈ options argv) :
    v.runtimeSpecified = true :=
  optionLoop_runtimeSpecified env argv _ _ _ _ h (Or.inr ⟨a, hr⟩)

/-! ## `getopt` on an option and its value in two words -/

theorem getopt_separate_l (argv : List String) (i : Nat) (s : String)
    (hl : argv[i]? = some "-l") (hs : argv[i + 1]? = some s) :
    getopt argv optstring ⟨i, []⟩ = (GetoptRet.opt 'l' (some s), ⟨i + 2, []⟩) := by
  have hlook : optLookup optstring.data 'l' = some true := by decide
  simp [getopt, hl, getoptChar, hs, hlook]

theorem iteration_separate_l (env : Env) (argv : List String) (i : Nat) (s : String) (v : Vars)
    (hl : argv[i]? = some "-l") (hs : argv[i + 1]? = some s) :
    iteration env argv ⟨i, []⟩ v = some (caseL env "-l" s v, ⟨i + 2, []⟩) := by
  unfold iteration
  rw [getopt_separate_l argv i s hl hs]
  simp only [switchOpt]
  rw [if_neg (by decide)]
  unfold switchArg
  simp [hl]

/-- A run that ends in the first turn of the option loop. -/
theorem main_of_first_turn_error (env : Env) (argv : List String) (run : Run)
    (st : GetoptState) (h : iteration env argv {} initialVars = some (Except.error run, st)) :
    main env argv = some run := by
  unfold main parseOptions loopFuel optionLoop
  rw [h]

/-- A `-l` argument whose token vector holds the same token `t` at two
positions `j < k` (any two, the first and the last included) ends the run
in `case 'l'` with status 1 and the "Duplicate entries in runtime order"
diagnostic, which names the word `argv[optind - 2]`; given as `-l <csv>`,
that word is `-l`. Nothing is written between the "Input String" line and
the diagnostic: no token has been resolved, so the outcome does not depend
on whether the list also holds unresolvable tokens. When `-l <csv>` comes
first on the command line, that is the run of `main`. -/
theorem duplicate_tokens_rejected (env : Env) (argv : List String) (i : Nat) (s : String)
    (v : Vars) (t : String) (j k : Nat)
    (hl : argv[i]? = some "-l") (hs : argv[i + 1]? = some s)
    (hjk : j < k)
    (hj : (env.split s ',')[j]? = some t) (hk : (env.split s ',')[k]? = some t) :
    (∀ (arg : String) (w : Vars), caseL env arg s w
      = Except.error
          ⟨w.trace ++ [Event.cout ("Input String: " ++ s),
             Event.cerr ("Error: Invalid values passed to the argument " ++ arg
               ++ ". Duplicate entries in runtime order.")],
           Outcome.exit 1⟩)
    ∧ iteration env argv ⟨i, []⟩ v
      = some (Except.error
          ⟨v.trace ++ [Event.cout ("Input String: " ++ s),
             Event.cerr "Error: Invalid values passed to the argument -l. Duplicate entries in runtime order."],
           Outcome.exit 1⟩, ⟨i + 2, []⟩)
    ∧ (i = 1 → main env argv
        = some ⟨[Event.initializeLogging, Event.setLogLevel, Event.cout ("Input String: " ++ s),
             Event.cerr "Error: Invalid values passed to the argument -l. Duplicate entries in runtime order."],
           Outcome.exit 1⟩) := by
  have hnd : ¬ (env.split s ',').Nodup := by
    intro hnd
    have hklt : k < (env.split s ',').length := (List.getElem?_eq_some_iff.mp hk).1
    exact List.nodup_iff_getElem?_ne_getElem?.mp hnd j k hjk hklt (by rw [hj, hk])
  have hmsg : dupMessage "-l"
      = "Error: Invalid values passed to the argument -l. Duplicate entries in runtime order." := by
    decide
  have hit : ∀ w : Vars, iteration env argv ⟨i, []⟩ w
      = some (Except.error
          ⟨w.trace ++ [Event.cout ("Input String: " ++ s),
             Event.cerr "Error: Invalid values passed to the argument -l. Duplicate entries in runtime order."],
           Outcome.exit 1⟩, ⟨i + 2, []⟩) := by
    intro w
    rw [iteration_separate_l env argv i s w hl hs, caseL_dup env "-l" s w hnd, hmsg]
  refine ⟨fun arg w => caseL_dup env arg s w hnd, hit v, ?_⟩
  intro hi
  subst hi
  exact main_of_first_turn_error env argv _ _ (hit initialVars)

theorem duplicate_tokens_rejected_witness :
    iteration sampleEnv ["snpe-sample", "-l", "tpu,cpu,cpu"] ⟨1, []⟩ initialVars
      = some (Except.error
          ⟨[Event.initializeLogging, Event.setLogLevel, Event.cout "Input String: tpu,cpu,cpu",
             Event.cerr "Error: Invalid values passed to the argument -l. Duplicate entries in runtime order."],
           Outcome.exit 1⟩, ⟨3, []⟩)
    ∧ main sampleEnv ["snpe-sample", "-l", "tpu,cpu,cpu"]
      = some ⟨[Event.initializeLogging, Event.setLogLevel, Event.cout "Input String: tpu,cpu,cpu",
             Event.cerr "Error: Invalid values passed to the argument -l. Duplicate entries in runtime order."],
           Outcome.exit 1⟩ :=
  have h := duplicate_tokens_rejected sampleEnv ["snpe-sample", "-l", "tpu,cpu,cpu"] 1
    "tpu,cpu,cpu" initialVars "cpu" 1 2 (by decide) (by decide) (by decide) (by decide) (by decide)
  ⟨h.2.1, h.2.2 rfl⟩

theorem resolveLoop_append (env : Env) (arg : String) (rest : List String) :
    ∀ (pre : List String) (v v1 : Vars),
      resolveLoop env arg pre v = Except.ok v1 →
      resolveLoop env arg (pre ++ rest) v = resolveLoop env arg rest v1 := by
  intro pre
  induction pre with
  | nil => intro v v1 h; simp [resolveLoop] at h; subst h; rfl
  | cons x pre ih =>
    intro v v1 h
    by_cases hx : env.stringToRuntime x = UNSET
    · rw [resolveLoop_unknown env arg x pre v hx] at h
      exact absurd h (by simp)
    · by_cases hmem : env.stringToRuntime x ∈ v.runtimeList
      · rw [resolveLoop_addFailed env arg x pre v hx hmem] at h
        exact absurd h (by simp)
      · rw [resolveLoop_cons_ok env arg x pre v hx hmem] at h
        rw [List.cons_append, resolveLoop_cons_ok env arg x (pre ++ rest) v hx hmem]
        exact ih _ _ h

/-! ## `main` after the option loop -/

theorem afterOptions_valid (env : Env) (v : Vars) (bt : BufferType) (q : Bool)
    (hd : env.fileOpens v.dlc = true) (hi : env.fileOpens v.inputFile = true)
    (hb : bufferTypeOf v.bufferTypeStr = some bt)
    (hu : userBufferSourceError env bt v.userBufferSourceStr = none)
    (hq : staticQuantizationOf v.staticQuantizationStr = some q) :
    afterOptions env v = selectAndBuild env v bt q := by
  simp [afterOptions, hd, hi, hb, hu, hq]

/-- Before line 306 nothing but a diagnostic is written. -/
theorem afterOptions_cases (env : Env) (v : Vars) :
    (∃ text, afterOptions env v = ⟨v.trace ++ [Event.cout text], Outcome.exit 1⟩)
    ∨ ∃ bt q, afterOptions env v = selectAndBuild env v bt q
        ∧ bufferTypeOf v.bufferTypeStr = some bt
        ∧ staticQuantizationOf v.staticQuantizationStr = some q := by
  unfold afterOptions
  split_ifs
  · exact Or.inl ⟨_, rfl⟩
  · cases hb : bufferTypeOf v.bufferTypeStr with
    | none => exact Or.inl ⟨_, rfl⟩
    | some bt =>
      cases hu : userBufferSourceError env bt v.userBufferSourceStr with
      | some text => exact Or.inl ⟨text, by simp [hu, Vars.stop, EXIT_FAILURE]⟩
      | none =>
        cases hq : staticQuantizationOf v.staticQuantizationStr with
        | none => exact Or.inl ⟨_, by simp [hu, hq, Vars.stop, EXIT_FAILURE]; rfl⟩
        | some q => exact Or.inr ⟨bt, q, by simp [hu, hq], rfl, rfl⟩

/-- From the null check of the built object on, the builder and
`checkRuntime` are not called. -/
theorem afterBuild_trace (env : Env) (v : Vars) (snpe : Bool) :
    ∃ es, (afterBuild env v snpe).trace = v.trace ++ es
      ∧ ∀ e ∈ es, e.isBuilderCall = false ∧ e.isCheckRuntime = false := by
  unfold afterBuild
  cases snpe with
  | false => exact ⟨_, rfl, by simp [Event.isBuilderCall, Event.isCheckRuntime]⟩
  | true =>
    simp only [Bool.true_eq_false, if_false]
    cases v.usingInitCaching <;> cases env.save v.dlc <;>
      rcases env.inputDimensions with _ | ⟨a, _ | ⟨b, _ | ⟨c, _ | ⟨d, l⟩⟩⟩⟩ <;>
      exact ⟨_, by simp [Vars.emit, Vars.stop]; rfl,
        by simp [Event.isBuilderCall, Event.isCheckRuntime]⟩



theorem setBuilderOptions_calls (env : Env) (r : Runtime_t) (l : RuntimeList) (ub : Bool)
    (pc : PlatformConfig) (c x : Bool) :
    (setBuilderOptions env r l ub pc c x).1
      = [Event.setOutputLayers,
         Event.setRuntimeProcessorOrder (if l = [] then [r] else l),
         Event.setUseUserSuppliedBuffers ub, Event.setPlatformConfig pc,
         Event.setInitCacheMode c, Event.setCpuFixedPointMode x, Event.build] := by
  cases l with
  | nil => simp [setBuilderOptions, RuntimeList.add]
  | cons a l => simp [setBuilderOptions]

theorem selectAndBuild_conflict (env : Env) (v : Vars) (bt : BufferType) (q : Bool)
    (hr : v.runtimeSpecified = true) (hl : v.runtimeList ≠ []) :
    selectAndBuild env v bt q
      = ⟨v.trace ++ [Event.cout "Invalid option cannot mix runtime order -l with runtime -r "],
          Outcome.exit 1⟩ := by
  simp [selectAndBuild, hr, hl, Vars.stop, FAILURE]

/-- What lines 324-377 add to the trace: no call of `checkRuntime`; the
builder is called not at all or as `setBuilderOptions` calls it, and it is
called when the container and the UDO packages load. -/
theorem loadAndBuild_trace (env : Env) (v : Vars) (bt : BufferType) :
    ∃ es, (loadAndBuild env v bt).trace = v.trace ++ es
      ∧ (∀ e ∈ es, e.isCheckRuntime = false)
      ∧ (es.filter Event.isBuilderCall = []
          ∨ es.filter Event.isBuilderCall
            = (setBuilderOptions env v.runtime v.runtimeList
                (decide (bt = BufferType.USERBUFFER_FLOAT ∨ bt = BufferType.USERBUFFER_TF8
                  ∨ bt = BufferType.USERBUFFER_TF16))
                {} v.usingInitCaching v.cpuFixedPointMode).1)
      ∧ (env.loadContainerFromFile v.dlc = true →
          env.loadUDOPackage v.UdoPackagePath = true →
          es.filter Event.isBuilderCall
            = (setBuilderOptions env v.runtime v.runtimeList
                (decide (bt = BufferType.USERBUFFER_FLOAT ∨ bt = BufferType.USERBUFFER_TF8
                  ∨ bt = BufferType.USERBUFFER_TF16))
                {} v.usingInitCaching v.cpuFixedPointMode).1) := by
  by_cases hc : env.loadContainerFromFile v.dlc = false
  · refine ⟨[Event.loadContainerFromFile v.dlc,
      Event.cerr "Error while opening the container file."], ?_, ?_, ?_, ?_⟩
    · simp [loadAndBuild, Vars.emit, hc, Vars.stop]
    · simp [Event.isCheckRuntime]
    · exact Or.inl (by simp [Event.isBuilderCall])
    · simp [hc]
  · by_cases hu : env.loadUDOPackage v.UdoPackagePath = false
    · refine ⟨[Event.loadContainerFromFile v.dlc, Event.loadUDOPackage v.UdoPackagePath,
        Event.cerr "Failed to load UDO Package(s)."], ?_, ?_, ?_, ?_⟩
      · simp [loadAndBuild, Vars.emit, hc, hu, Vars.stop]
      · simp [Event.isCheckRuntime]
      · exact Or.inl (by simp [Event.isBuilderCall])
      · simp [hu]
    · have hrun : ∃ snpe, loadAndBuild env v bt
          = afterBuild env (v.emit (Event.loadContainerFromFile v.dlc
              :: Event.loadUDOPackage v.UdoPackagePath
              :: (setBuilderOptions env v.runtime v.runtimeList
                (decide (bt = BufferType.USERBUFFER_FLOAT ∨ bt = BufferType.USERBUFFER_TF8
                  ∨ bt = BufferType.USERBUFFER_TF16))
                {} v.usingInitCaching v.cpuFixedPointMode).1)) snpe :=
        ⟨_, by simp [loadAndBuild, Vars.emit, hc, hu]; rfl⟩
      obtain ⟨snpe, hrun⟩ := hrun
      obtain ⟨es, hes, hnb⟩ := afterBuild_trace env (v.emit (Event.loadContainerFromFile v.dlc
              :: Event.loadUDOPackage v.UdoPackagePath
              :: (setBuilderOptions env v.runtime v.runtimeList
                (decide (bt = BufferType.USERBUFFER_FLOAT ∨ bt = BufferType.USERBUFFER_TF8
                  ∨ bt = BufferType.USERBUFFER_TF16))
                {} v.usingInitCaching v.cpuFixedPointMode).1)) snpe
      have hfilter : es.filter Event.isBuilderCall = [] := by
        rw [List.filter_eq_nil_iff]
        intro e he
        simp [(hnb e he).1]
      have hcalls : ((setBuilderOptions env v.runtime v.runtimeList
                (decide (bt = BufferType.USERBUFFER_FLOAT ∨ bt = BufferType.USERBUFFER_TF8
                  ∨ bt = BufferType.USERBUFFER_TF16))
                {} v.usingInitCaching v.cpuFixedPointMode).1 ++ es).filter Event.isBuilderCall
          = (setBuilderOptions env v.runtime v.runtimeList
                (decide (bt = BufferType.USERBUFFER_FLOAT ∨ bt = BufferType.USERBUFFER_TF8
                  ∨ bt = BufferType.USERBUFFER_TF16))
                {} v.usingInitCaching v.cpuFixedPointMode).1 := by
        rw [List.filter_append, hfilter, setBuilderOptions_calls]
        simp [Event.isBuilderCall]
      refine ⟨Event.loadContainerFromFile v.dlc :: Event.loadUDOPackage v.UdoPackagePath
        :: ((setBuilderOptions env v.runtime v.runtimeList
                (decide (bt = BufferType.USERBUFFER_FLOAT ∨ bt = BufferType.USERBUFFER_TF8
                  ∨ bt = BufferType.USERBUFFER_TF16))
                {} v.usingInitCaching v.cpuFixedPointMode).1 ++ es), ?_, ?_, ?_, ?_⟩
      · rw [hrun, hes]; simp [Vars.emit]
      · intro e he
        simp only [List.mem_cons, List.mem_append] at he
        rcases he with rfl | rfl | he | he
        · rfl
        · rfl
        · rw [setBuilderOptions_calls] at he
          simp at he
          rcases he with rfl | rfl | rfl | rfl | rfl | rfl | rfl <;> rfl
        · exact (hnb e he).2
      · right
        simp only [List.filter_cons, Event.isBuilderCall]
        simpa using hcalls
      · intro _ _
        simp only [List.filter_cons, Event.isBuilderCall]
        simpa using hcalls

theorem selectAndBuild_trace (env : Env) (v : Vars) (bt : BufferType) (q : Bool) :
    ∃ es, (selectAndBuild env v bt q).trace = v.trace ++ es
      ∧ (∀ e ∈ es, e.isCheckRuntime = true →
          v.runtimeSpecified = true ∧ v.runtimeList = [] ∧ e = Event.checkRuntime v.runtime q)
      ∧ (es.filter Event.isBuilderCall = []
          ∨ es.filter Event.isBuilderCall
            = (setBuilderOptions env
                (if v.runtimeSpecified then env.checkRuntime v.runtime q else v.runtime)
                v.runtimeList
                (decide (bt = BufferType.USERBUFFER_FLOAT ∨ bt = BufferType.USERBUFFER_TF8
                  ∨ bt = BufferType.USERBUFFER_TF16))
                {} v.usingInitCaching v.cpuFixedPointMode).1)
      ∧ (¬ (v.runtimeSpecified = true ∧ v.runtimeList ≠ []) →
          env.loadContainerFromFile v.dlc = true →
          env.loadUDOPackage v.UdoPackagePath = true →
          es.filter Event.isBuilderCall
            = (setBuilderOptions env
                (if v.runtimeSpecified then env.checkRuntime v.runtime q else v.runtime)
                v.runtimeList
                (decide (bt = BufferType.USERBUFFER_FLOAT ∨ bt = BufferType.USERBUFFER_TF8
                  ∨ bt = BufferType.USERBUFFER_TF16))
                {} v.usingInitCaching v.cpuFixedPointMode).1) := by
  by_cases hconf : v.runtimeSpecified = true ∧ v.runtimeList ≠ []
  · rw [selectAndBuild_conflict env v bt q hconf.1 hconf.2]
    exact ⟨_, rfl, by simp [Event.isCheckRuntime], Or.inl (by simp [Event.isBuilderCall]),
      fun h => absurd hconf h⟩
  · have hconf' : ¬ (v.runtimeSpecified = true ∧ v.runtimeList.isEmpty = false) := by
      simpa using hconf
    unfold selectAndBuild
    rw [if_neg hconf']
    cases hspec : v.runtimeSpecified with
    | false =>
      simp only [Bool.false_eq_true, if_false]
      obtain ⟨es, hes, hcr, hb, hb'⟩ := loadAndBuild_trace env v bt
      exact ⟨es, hes, fun e he h => by simp [hcr e he] at h, hb, fun _ => hb'⟩
    | true =>
      simp only [if_true]
      have hl : v.runtimeList = [] := by
        by_contra hne
        exact hconf ⟨hspec, hne⟩
      obtain ⟨es, hes, hcr, hb, hb'⟩ := loadAndBuild_trace env
        { v.emit [Event.checkRuntime v.runtime q] with
            runtime := env.checkRuntime v.runtime q } bt
      refine ⟨Event.checkRuntime v.runtime q :: es, by rw [hes]; simp [Vars.emit], ?_, ?_, ?_⟩
      · intro e he h
        rcases List.mem_cons.mp he with rfl | he
        · exact ⟨by simp, hl, rfl⟩
        · simp [hcr e he] at h
      · simpa [Event.isBuilderCall, Vars.emit] using hb
      · intro _
        simpa [Event.isBuilderCall, Vars.emit] using hb'

/-! ## The command line and the variables it leaves -/

theorem optstring_data : optstring.data
    = ['h', 'i', ':', 'd', ':', 'o', ':', 'b', ':', 'q', ':', 's', ':', 'z', ':', 'r', ':',
       'l', ':', 'u', ':', 'c', ':', 'x'] := by
  decide

/-- The options of the option string: `h` and `x` take no argument, the
eleven others take one. -/
theorem optLookup_optstring (c : Char) :
    (optLookup optstring.data c = some false → c = 'h' ∨ c = 'x')
    ∧ (optLookup optstring.data c = some true →
        c = 'i' ∨ c = 'd' ∨ c = 'o' ∨ c = 'b' ∨ c = 'q' ∨ c = 's' ∨ c = 'z' ∨ c = 'r'
          ∨ c = 'l' ∨ c = 'u' ∨ c = 'c') := by
  rw [optstring_data]
  by_cases h1 : c = 'h'
  · subst h1; decide
  by_cases h2 : c = 'x'
  · subst h2; decide
  by_cases h3 : c = 'i'
  · subst h3; decide
  by_cases h4 : c = 'd'
  · subst h4; decide
  by_cases h5 : c = 'o'
  · subst h5; decide
  by_cases h6 : c = 'b'
  · subst h6; decide
  by_cases h7 : c = 'q'
  · subst h7; decide
  by_cases h8 : c = 's'
  · subst h8; decide
  by_cases h9 : c = 'z'
  · subst h9; decide
  by_cases h10 : c = 'r'
  · subst h10; decide
  by_cases h11 : c = 'l'
  · subst h11; decide
  by_cases h12 : c = 'u'
  · subst h12; decide
  by_cases h13 : c = 'c'
  · subst h13; decide
  have hn : optLookup ['h', 'i', ':', 'd', ':', 'o', ':', 'b', ':', 'q', ':', 's', ':', 'z', ':',
      'r', ':', 'l', ':', 'u', ':', 'c', ':', 'x'] c = none := by
    have hcolon : ∀ rest : List Char, optLookup (':' :: rest) c = optLookup rest c := by
      intro rest
      simp only [optLookup]
      rw [if_neg]
      intro hh
      exact hh.2 hh.1.symm
    have hskip : ∀ (o : Char) (rest : List Char), c ≠ o →
        optLookup (o :: rest) c = optLookup rest c := by
      intro o rest h
      simp only [optLookup]
      rw [if_neg]
      intro hh
      exact h hh.1.symm
    rw [hskip _ _ h1, hskip _ _ h3, hcolon, hskip _ _ h4, hcolon, hskip _ _ h5, hcolon,
      hskip _ _ h6, hcolon, hskip _ _ h7, hcolon, hskip _ _ h8, hcolon, hskip _ _ h9, hcolon,
      hskip _ _ h10, hcolon, hskip _ _ h11, hcolon, hskip _ _ h12, hcolon, hskip _ _ h13,
      hcolon, hskip _ _ h2]
    rfl
  rw [hn]
  simp



/-- What `getopt` returns with the option string of `main`: `-1`, `'?'`, the
options `h` or `x` without argument, or one of the eleven others with its
argument. -/
theorem getopt_shape (argv : List String) (st : GetoptState) (c : Char) (x : Option String)
    (st' : GetoptState) (h : getopt argv optstring st = (GetoptRet.opt c x, st')) :
    (x = none ∧ (c = 'h' ∨ c = 'x'))
    ∨ (∃ a, x = some a ∧ (c = 'i' ∨ c = 'd' ∨ c = 'o' ∨ c = 'b' ∨ c = 'q' ∨ c = 's' ∨ c = 'z'
        ∨ c = 'r' ∨ c = 'l' ∨ c = 'u' ∨ c = 'c')) := by
  have hchar : ∀ (optind : Nat) (c' : Char) (cs : List Char),
      getoptChar argv optstring optind c' cs = (GetoptRet.opt c x, st') →
      (x = none ∧ (c = 'h' ∨ c = 'x'))
      ∨ (∃ a, x = some a ∧ (c = 'i' ∨ c = 'd' ∨ c = 'o' ∨ c = 'b' ∨ c = 'q' ∨ c = 's'
          ∨ c = 'z' ∨ c = 'r' ∨ c = 'l' ∨ c = 'u' ∨ c = 'c')) := by
    intro optind c' cs hc
    unfold getoptChar at hc
    cases hl : optLookup optstring.data c' with
    | none => rw [hl] at hc; simp at hc
    | some b =>
      rw [hl] at hc
      cases b with
      | false =>
        simp at hc
        obtain ⟨⟨rfl, rfl⟩, _⟩ := hc
        exact Or.inl ⟨rfl, (optLookup_optstring c').1 hl⟩
      | true =>
        have hcc := (optLookup_optstring c').2 hl
        cases cs with
        | cons d ds =>
          simp at hc
          obtain ⟨⟨rfl, rfl⟩, _⟩ := hc
          exact Or.inr ⟨_, rfl, hcc⟩
        | nil =>
          simp only at hc
          cases ha : argv[optind + 1]? with
          | none => rw [ha] at hc; simp at hc
          | some a =>
            rw [ha] at hc
            simp at hc
            obtain ⟨⟨rfl, rfl⟩, _⟩ := hc
            exact Or.inr ⟨_, rfl, hcc⟩
  unfold getopt at h
  split at h
  · exact hchar _ _ _ h
  · split at h
    · simp at h
    · split at h
      · split at h
        · simp at h
        · exact hchar _ _ _ h
      · simp at h

theorem listAccepted_iff (env : Env) (s : String) :
    listAccepted env s = true ↔
      env.split s ',' ≠ []
      ∧ (∀ t ∈ env.split s ',', env.stringToRuntime t ≠ UNSET)
      ∧ ((env.split s ',').map env.stringToRuntime).Nodup := by
  simp [listAccepted]

/-- The list that `case 'l'` accepts becomes the runtime list. -/
theorem caseL_accepted (env : Env) (arg s : String) (v : Vars)
    (h : listAccepted env s = true) :
    caseL env arg s v
      = Except.ok { v with trace := v.trace ++ Event.cout ("Input String: " ++ s)
                              :: resolveEvents (env.split s ','),
                           runtimeList := (env.split s ',').map env.stringToRuntime } := by
  obtain ⟨hne, hres, hids⟩ := (listAccepted_iff env s).mp h
  rw [caseL_nodup env arg s v hne (List.Nodup.of_map _ hids),
    resolveLoop_ok env arg _ _ hres (by simpa using hids)]
  simp

/-- One turn of the loop body on an accepted option of the option string:
the loop goes on, and the variables are what the option makes of them. -/
theorem switchOpt_accepted (env : Env) (argv : List String) (optind : Nat) (c : Char)
    (x : Option String) (v : Vars)
    (hshape : (x = none ∧ (c = 'h' ∨ c = 'x'))
      ∨ (∃ a, x = some a ∧ (c = 'i' ∨ c = 'd' ∨ c = 'o' ∨ c = 'b' ∨ c = 'q' ∨ c = 's'
          ∨ c = 'z' ∨ c = 'r' ∨ c = 'l' ∨ c = 'u' ∨ c = 'c')))
    (hacc : optionAccepted env (GetoptRet.opt c x) = true) :
    ∃ v1, switchOpt env argv optind (GetoptRet.opt c x) v = Except.ok v1
      ∧ Summarises env [GetoptRet.opt c x] v v1 := by
  rcases hshape with ⟨rfl, rfl | rfl⟩ | ⟨a, rfl, hc⟩
  · simp [optionAccepted] at hacc
  · exact ⟨_, rfl, by simp [Summarises, lastArg, argOf, hasOption, optChar]⟩
  · rcases hc with rfl | rfl | rfl | rfl | rfl | rfl | rfl | rfl | rfl | rfl | rfl
    · exact ⟨_, rfl, by simp [Summarises, lastArg, argOf, hasOption, optChar]⟩
    · exact ⟨_, rfl, by simp [Summarises, lastArg, argOf, hasOption, optChar]⟩
    · exact ⟨_, rfl, by simp [Summarises, lastArg, argOf, hasOption, optChar]⟩
    · exact ⟨_, rfl, by simp [Summarises, lastArg, argOf, hasOption, optChar]⟩
    · exact ⟨_, rfl, by simp [Summarises, lastArg, argOf, hasOption, optChar]⟩
    · exact ⟨_, rfl, by simp [Summarises, lastArg, argOf, hasOption, optChar]⟩
    · exact ⟨_, rfl, by simp [Summarises, lastArg, argOf, hasOption, optChar, Vars.emit]⟩
    · refine ⟨caseR a v, rfl, ?_⟩
      obtain ⟨h1, h2, _⟩ := caseR_frame a v
      have hf : (caseR a v).dlc = v.dlc ∧ (caseR a v).inputFile = v.inputFile
          ∧ (caseR a v).OutputDir = v.OutputDir ∧ (caseR a v).bufferTypeStr = v.bufferTypeStr
          ∧ (caseR a v).userBufferSourceStr = v.userBufferSourceStr
          ∧ (caseR a v).staticQuantizationStr = v.staticQuantizationStr
          ∧ (caseR a v).UdoPackagePath = v.UdoPackagePath
          ∧ (caseR a v).usingInitCaching = v.usingInitCaching
          ∧ (caseR a v).cpuFixedPointMode = v.cpuFixedPointMode := by
        unfold caseR
        split_ifs <;> simp [Vars.emit]
      obtain ⟨f1, f2, f3, f4, f5, f6, f7, f8, f9⟩ := hf
      simp [Summarises, lastArg, argOf, hasOption, optChar, h1, h2, f1, f2, f3, f4, f5, f6, f7,
        f8, f9]
    · have hl : listAccepted env a = true := by simpa [optionAccepted] using hacc
      refine ⟨{ v with trace := v.trace ++ Event.cout ("Input String: " ++ a)
                              :: resolveEvents (env.split a ','),
                           runtimeList := (env.split a ',').map env.stringToRuntime }, ?_, ?_⟩
      · show caseL env _ a v = _
        exact caseL_accepted env _ a v hl
      · simp [Summarises, lastArg, argOf, hasOption, optChar]
    · exact ⟨_, rfl, by simp [Summarises, lastArg, argOf, hasOption, optChar]⟩
    · exact ⟨_, rfl, by simp [Summarises, lastArg, argOf, hasOption, optChar]⟩

theorem lastArg_cons (c : Char) (o : GetoptRet) (opts : List GetoptRet) :
    lastArg c (o :: opts) = (lastArg c opts).or (argOf c o) := by
  simp only [lastArg]
  cases lastArg c opts <;> rfl

theorem hasOption_cons (c : Char) (o : GetoptRet) (opts : List GetoptRet) :
    hasOption c (o :: opts) = (decide (optChar o = some c) || hasOption c opts) := by
  simp [hasOption]

theorem Summarises_nil (env : Env) (v : Vars) : Summarises env [] v v := by
  simp [Summarises, lastArg, hasOption]

/-- The options `o :: opts` make of the variables what `opts` makes of what
`o` makes of them. -/
theorem Summarises_cons (env : Env) (o : GetoptRet) (opts : List GetoptRet) (v v1 v' : Vars)
    (h1 : Summarises env [o] v v1) (h2 : Summarises env opts v1 v') :
    Summarises env (o :: opts) v v' := by
  obtain ⟨a1, a2, a3, a4, a5, a6, a7, a8, a9, a10, a11⟩ := h1
  obtain ⟨b1, b2, b3, b4, b5, b6, b7, b8, b9, b10, b11⟩ := h2
  have hone : ∀ c, lastArg c [o] = argOf c o := fun c => rfl
  have hflag : ∀ c, hasOption c [o] = decide (optChar o = some c) := by
    intro c; simp [hasOption]
  simp only [hone, hflag] at a1 a2 a3 a4 a5 a6 a7 a8 a9 a10 a11
  refine ⟨?_, ?_, ?_, ?_, ?_, ?_, ?_, ?_, ?_, ?_, ?_⟩
  · rw [b1, a1, lastArg_cons]; cases lastArg 'd' opts <;> rfl
  · rw [b2, a2, lastArg_cons]; cases lastArg 'i' opts <;> rfl
  · rw [b3, a3, lastArg_cons]; cases lastArg 'o' opts <;> rfl
  · rw [b4, a4, lastArg_cons]; cases lastArg 'b' opts <;> rfl
  · rw [b5, a5, lastArg_cons]; cases lastArg 's' opts <;> rfl
  · rw [b6, a6, lastArg_cons]; cases lastArg 'q' opts <;> rfl
  · rw [b7, a7, lastArg_cons]; cases lastArg 'u' opts <;> rfl
  · rw [b8, a8, lastArg_cons]; cases lastArg 'l' opts <;> rfl
  · rw [b9, a9, hasOption_cons, Bool.or_assoc]
  · rw [b10, a10, hasOption_cons, Bool.or_assoc]
  · rw [b11, a11, hasOption_cons, Bool.or_assoc]

/-- On a command line all of whose options are accepted the option loop is
left, with the variables that the options make of the initial ones. -/
theorem optionLoop_accepted (env : Env) (argv : List String) :
    ∀ (fuel : Nat) (st : GetoptState) (v : Vars), getoptMeasure argv st < fuel →
      (∀ o ∈ optionsFrom argv fuel st, optionAccepted env o = true) →
      ∃ v', optionLoop env argv fuel st v = some (Except.ok v')
        ∧ Summarises env (optionsFrom argv fuel st) v v' := by
  intro fuel
  induction fuel with
  | zero => intro st v h; omega
  | succ n ih =>
    intro st v hm hacc
    unfold optionLoop iteration
    unfold optionsFrom at hacc ⊢
    have hdec := getopt_measure argv optstring st
    have hshape := getopt_shape argv st
    generalize getopt argv optstring st = g at hdec hshape hacc ⊢
    obtain ⟨r, st'⟩ := g
    cases r with
    | done => exact ⟨v, rfl, Summarises_nil env v⟩
    | bad =>
      have := hacc GetoptRet.bad (by simp)
      simp [optionAccepted] at this
    | opt c x =>
      simp only at hacc ⊢
      have hlt : getoptMeasure argv st' < n := by
        have := hdec (by simp)
        simp at this
        omega
      obtain ⟨v1, hsw, hs1⟩ := switchOpt_accepted env argv st'.optind c x v
        (hshape c x st' rfl) (hacc _ (by simp))
      obtain ⟨v', hloop, hs2⟩ := ih st' v1 hlt (fun o ho => hacc o (by simp [ho]))
      rw [hsw]
      exact ⟨v', hloop, Summarises_cons env _ _ v v1 v' hs1 hs2⟩

theorem parseOptions_accepted (env : Env) (argv : List String)
    (h : ∀ o ∈ options argv, optionAccepted env o = true) :
    ∃ v, parseOptions env argv = some (Except.ok v)
      ∧ Summarises env (options argv) initialVars v :=
  optionLoop_accepted env argv _ _ _ (initial_measure_lt argv) h

theorem lastArg_mem (c : Char) : ∀ (opts : List GetoptRet) (a : String),
    lastArg c opts = some a → GetoptRet.opt c (some a) ∈ opts := by
  intro opts
  induction opts with
  | nil => intro a h; simp [lastArg] at h
  | cons o opts ih =>
    intro a h
    rw [lastArg_cons] at h
    cases hl : lastArg c opts with
    | some b =>
      rw [hl] at h
      simp at h
      subst h
      exact List.mem_cons_of_mem _ (ih b hl)
    | none =>
      rw [hl] at h
      simp at h
      cases o with
      | opt c' x =>
        cases x with
        | none => simp [argOf] at h
        | some b =>
          simp only [argOf] at h
          split_ifs at h with hc
          · simp at h
            subst h hc
            simp
      | done => simp [argOf] at h
      | bad => simp [argOf] at h

theorem lastArg_isSome_of_mem (c : Char) : ∀ (opts : List GetoptRet) (a : String),
    GetoptRet.opt c (some a) ∈ opts → ∃ b, lastArg c opts = some b := by
  intro opts
  induction opts with
  | nil => intro a h; simp at h
  | cons o opts ih =>
    intro a h
    rw [lastArg_cons]
    cases hl : lastArg c opts with
    | some b => exact ⟨b, rfl⟩
    | none =>
      rcases List.mem_cons.mp h with h | h
      · subst h
        exact ⟨a, by simp [argOf]⟩
      · obtain ⟨b, hb⟩ := ih a h
        rw [hl] at hb
        simp at hb

theorem hasOption_of_mem (c : Char) (x : Option String) (opts : List GetoptRet)
    (h : GetoptRet.opt c x ∈ opts) : hasOption c opts = true := by
  simp only [hasOption, List.any_eq_true]
  exact ⟨_, h, by simp [optChar]⟩

/-! ## Runs of `main` -/

theorem main_of_parse_ok (env : Env) (argv : List String) (v : Vars)
    (h : parseOptions env argv = some (Except.ok v)) :
    main env argv = some (afterOptions env v) := by
  simp [main, h]

theorem main_of_parse_error (env : Env) (argv : List String) (run : Run)
    (h : parseOptions env argv = some (Except.error run)) :
    main env argv = some run := by
  simp [main, h]

theorem staticQuantizationOf_other (s : String) (h1 : s ≠ "true") (h2 : s ≠ "false") :
    staticQuantizationOf s = none := by
  simp [staticQuantizationOf, h1, h2]

/-- A run that ends before line 306 has no event of runtime selection or
later. -/
theorem afterOptions_invalid_quantization (env : Env) (v : Vars)
    (hsel : ∀ e ∈ v.trace, e.isSelectionOrLater = false)
    (hq : staticQuantizationOf v.staticQuantizationStr = none) :
    (afterOptions env v).outcome = Outcome.exit 1
    ∧ ∀ e ∈ (afterOptions env v).trace, e.isSelectionOrLater = false := by
  rcases afterOptions_cases env v with ⟨text, h⟩ | ⟨bt, q, _, _, hq'⟩
  · rw [h]
    refine ⟨rfl, ?_⟩
    intro e he
    rcases List.mem_append.mp he with he | he
    · exact hsel e he
    · simp at he
      subst he
      rfl
  · rw [hq] at hq'
    exact absurd hq' (by simp)

theorem filter_builder_of_noSelection (es : List Event)
    (h : ∀ e ∈ es, e.isSelectionOrLater = false) :
    es.filter Event.isBuilderCall = [] := by
  rw [List.filter_eq_nil_iff]
  intro e he
  have := h e he
  cases e <;> simp_all [Event.isBuilderCall, Event.isSelectionOrLater]

/-- Claim C7. On a command line that holds the two options `-d <container>`
and `-i <input list>` and nothing else, in either order, with both files
opening and the container and the UDO packages loading, the builder is
called once, as `setOutputLayers`, `setRuntimeProcessorOrder [CPU]`,
`setUseUserSuppliedBuffers false`, `setPlatformConfig`,
`setInitCacheMode false`, `setCpuFixedPointMode false` and `build`, and
`checkRuntime` is not called. -/
theorem default_options_build (env : Env) (prog d i : String) (argv : List String)
    (hargv : argv = [prog, "-d", d, "-i", i] ∨ argv = [prog, "-i", i, "-d", d])
    (hd : env.fileOpens d = true) (hi : env.fileOpens i = true)
    (hc : env.loadContainerFromFile d = true) (hu : env.loadUDOPackage "" = true) :
    ∃ run, main env argv = some run
      ∧ run.trace.filter Event.isBuilderCall
        = [Event.setOutputLayers, Event.setRuntimeProcessorOrder [CPU],
           Event.setUseUserSuppliedBuffers false, Event.setPlatformConfig {},
           Event.setInitCacheMode false, Event.setCpuFixedPointMode false, Event.build]
      ∧ ∀ e ∈ run.trace, e.isCheckRuntime = false := by
  have hparse : parseOptions env argv
      = some (Except.ok { initialVars with dlc := d, inputFile := i }) := by
    have h3 : optionLoop env argv 3 {} initialVars
        = some (Except.ok { initialVars with dlc := d, inputFile := i }) := by
      rcases hargv with rfl | rfl <;> rfl
    have hfuel : ∃ k, loopFuel argv = 3 + k := by
      refine ⟨loopFuel argv - 3, ?_⟩
      have h1 : "-d".length = 2 := by decide
      have h2 : "-i".length = 2 := by decide
      have : 3 ≤ loopFuel argv := by
        rcases hargv with rfl | rfl <;>
          simp only [loopFuel, List.map, List.sum_cons, h1, h2] <;> omega
      omega
    obtain ⟨k, hk⟩ := hfuel
    unfold parseOptions
    rw [hk]
    exact optionLoop_mono env argv k 3 _ _ _ h3
  refine ⟨_, main_of_parse_ok env argv _ hparse, ?_⟩
  rw [afterOptions_valid env { initialVars with dlc := d, inputFile := i }
    BufferType.ITENSOR false hd hi rfl rfl rfl]
  obtain ⟨es, hes, hcr, _, hcalls⟩ := selectAndBuild_trace env
    { initialVars with dlc := d, inputFile := i } BufferType.ITENSOR false
  rw [hes]
  refine ⟨?_, ?_⟩
  · rw [List.filter_append, hcalls (by simp [initialVars]) hc hu, setBuilderOptions_calls]
    simp [initialVars, Event.isBuilderCall]
  · intro e he
    rcases List.mem_append.mp he with he | he
    · simp [initialVars] at he
      rcases he with rfl | rfl <;> rfl
    · cases hce : e.isCheckRuntime with
      | false => rfl
      | true =>
        have := (hcr e he hce).1
        simp [initialVars] at this

theorem default_options_build_witness :
    ∃ run, main sampleEnv ["snpe-sample", "-d", "m.dlc", "-i", "in.txt"] = some run
      ∧ run.trace.filter Event.isBuilderCall
        = [Event.setOutputLayers, Event.setRuntimeProcessorOrder [CPU],
           Event.setUseUserSuppliedBuffers false, Event.setPlatformConfig {},
           Event.setInitCacheMode false, Event.setCpuFixedPointMode false, Event.build]
      ∧ ∀ e ∈ run.trace, e.isCheckRuntime = false :=
  default_options_build sampleEnv "snpe-sample" "m.dlc" "in.txt"
    ["snpe-sample", "-d", "m.dlc", "-i", "in.txt"] (Or.inl rfl) rfl rfl rfl rfl

/-- The runtime order that reaches the builder is the runtime list of the
option loop, or a one-element list when that list is empty. -/
theorem afterOptions_runtime_order (env : Env) (v : Vars) (L : RuntimeList)
    (hsel : ∀ e ∈ v.trace, e.isSelectionOrLater = false)
    (h : Event.setRuntimeProcessorOrder L ∈ (afterOptions env v).trace) :
    (v.runtimeList ≠ [] ∧ L = v.runtimeList) ∨ (v.runtimeList = [] ∧ ∃ r, L = [r]) := by
  have hnot : Event.setRuntimeProcessorOrder L ∉ v.trace := by
    intro hin
    have := hsel _ hin
    simp [Event.isSelectionOrLater] at this
  rcases afterOptions_cases env v with ⟨text, hrun⟩ | ⟨bt, q, hrun, _, _⟩
  · rw [hrun] at h
    rcases List.mem_append.mp h with h | h
    · exact absurd h hnot
    · simp at h
  · rw [hrun] at h
    obtain ⟨es, hes, _, hcalls, _⟩ := selectAndBuild_trace env v bt q
    rw [hes] at h
    rcases List.mem_append.mp h with h | h
    · exact absurd h hnot
    · have hf : Event.setRuntimeProcessorOrder L ∈ es.filter Event.isBuilderCall :=
        List.mem_filter.mpr ⟨h, rfl⟩
      rcases hcalls with hc | hc
      · rw [hc] at hf
        simp at hf
      · rw [hc, setBuilderOptions_calls] at hf
        simp at hf
        by_cases hl : v.runtimeList = []
        · exact Or.inr ⟨hl, _, by simpa [hl] using hf⟩
        · exact Or.inl ⟨hl, by simpa [hl] using hf⟩

/-- Claim C10. With `RuntimeList::add` appending an id that is new and
returning false for an id that is already in the list: in every run of
`main`, a runtime list handed to the builder's `setRuntimeProcessorOrder` is
not empty and holds no backend id twice. And a `-l` argument, given as
`-l <csv>`, whose tokens are pairwise distinct strings that all resolve, two
of them to the same backend id, ends the run with status 1 in the
diagnostic of the failed `add`, in the turn of the loop that reads it. -/
theorem builder_runtime_list_nonempty_nodup (env : Env) (argv : List String) :
    (∀ (l : RuntimeList) (r : Runtime_t),
        RuntimeList.add l r = (if r ∈ l then (l, false) else (l ++ [r], true)))
    ∧ (∀ (run : Run) (L : RuntimeList), main env argv = some run →
        Event.setRuntimeProcessorOrder L ∈ run.trace → L ≠ [] ∧ L.Nodup)
    ∧ (∀ (i : Nat) (s : String) (v : Vars),
        argv[i]? = some "-l" → argv[i + 1]? = some s →
        (env.split s ',').Nodup →
        (∀ t ∈ env.split s ',', env.stringToRuntime t ≠ UNSET) →
        ¬ ((env.split s ',').map env.stringToRuntime).Nodup →
        ∃ run, iteration env argv ⟨i, []⟩ v = some (Except.error run, ⟨i + 2, []⟩)
          ∧ run.outcome = Outcome.exit 1
          ∧ run.trace.getLast? = some (Event.cerr
            "Error: Invalid values passed to the argument -l. Please provide comma seperated runtime order of precedence.")) := by
  refine ⟨fun l r => rfl, ?_, ?_⟩
  · intro run L hmain hmem
    obtain ⟨res, hres⟩ := parseOptions_isSome env argv
    cases res with
    | error run' =>
      rw [main_of_parse_error env argv run' hres] at hmain
      cases hmain
      have := parseOptions_error_invariant env argv _ hres _ hmem
      simp [Event.isSelectionOrLater] at this
    | ok v =>
      rw [main_of_parse_ok env argv v hres] at hmain
      cases hmain
      obtain ⟨hsel, hnd⟩ := parseOptions_ok_invariant env argv v hres
      rcases afterOptions_runtime_order env v L hsel hmem with ⟨hne, rfl⟩ | ⟨_, r, rfl⟩
      · exact ⟨hne, hnd⟩
      · exact ⟨by simp, by simp⟩
  · intro i s v hl hs hnd hres hids
    have hne : env.split s ',' ≠ [] := by
      intro h
      rw [h] at hids
      simp at hids
    have ha : addFailedMessage "-l"
        = "Error: Invalid values passed to the argument -l. Please provide comma seperated runtime order of precedence." := by
      decide
    rw [iteration_separate_l env argv i s v hl hs, caseL_nodup env "-l" s v hne hnd]
    cases hrl : resolveLoop env "-l" (env.split s ',')
        { v with trace := v.trace ++ [Event.cout ("Input String: " ++ s)], runtimeList := [] } with
    | ok v' =>
      have := (resolveLoop_result env "-l" _ _ _ hrl).2.2 (by simp)
      exact absurd (by simpa using this) hids
    | error run =>
      obtain ⟨h1, _, h3⟩ := resolveLoop_error env "-l" _ _ _ hrl
      refine ⟨run, rfl, h1, ?_⟩
      rcases h3 with ⟨_, t, ht, htu⟩ | ⟨h3, _⟩
      · exact absurd htu (hres t ht)
      · rw [h3, ha]

theorem builder_runtime_list_nonempty_nodup_witness :
    (∃ run, main sampleEnv ["snpe-sample", "-d", "m.dlc", "-i", "in.txt", "-l", "gpu,dsp"] = some run
      ∧ Event.setRuntimeProcessorOrder [GPU, DSP] ∈ run.trace
      ∧ ([GPU, DSP] : RuntimeList) ≠ [] ∧ ([GPU, DSP] : RuntimeList).Nodup)
    ∧ ∃ run, iteration sampleEnv ["snpe-sample", "-l", "cpu,cpu_float32"] ⟨1, []⟩ initialVars
          = some (Except.error run, ⟨3, []⟩)
        ∧ run.outcome = Outcome.exit 1
        ∧ run.trace.getLast? = some (Event.cerr
            "Error: Invalid values passed to the argument -l. Please provide comma seperated runtime order of precedence.") :=
  ⟨⟨_, rfl, by decide,
      (builder_runtime_list_nonempty_nodup sampleEnv
        ["snpe-sample", "-d", "m.dlc", "-i", "in.txt", "-l", "gpu,dsp"]).2.1 _ [GPU, DSP] rfl
        (by decide)⟩,
    (builder_runtime_list_nonempty_nodup sampleEnv ["snpe-sample", "-l", "cpu,cpu_float32"]).2.2
      1 "cpu,cpu_float32" initialVars (by decide) (by decide) (by decide) (by decide) (by decide)⟩

/-- Claim C9. The function `setBuilderOptions` hands the builder a full
ordered list: with an empty runtime list, `setRuntimeProcessorOrder`
receives the one-element list of the single runtime; with a non-empty
runtime list it receives that list itself, whatever the single runtime. In
both cases the six settings are applied with the caller's values, in the
order output layers, runtime order, user-buffer flag, platform
configuration, init-cache mode, CPU fixed-point mode, and `build` is called
once, after them. -/
theorem setBuilderOptions_full_list (env : Env) (r : Runtime_t) (a : Runtime_t)
    (L : RuntimeList) (ub : Bool) (pc : PlatformConfig) (c x : Bool) :
    setBuilderOptions env r [] ub pc c x
      = ([Event.setOutputLayers, Event.setRuntimeProcessorOrder [r],
          Event.setUseUserSuppliedBuffers ub, Event.setPlatformConfig pc,
          Event.setInitCacheMode c, Event.setCpuFixedPointMode x, Event.build],
         env.build [r] ub pc c x)
    ∧ setBuilderOptions env r (a :: L) ub pc c x
      = ([Event.setOutputLayers, Event.setRuntimeProcessorOrder (a :: L),
          Event.setUseUserSuppliedBuffers ub, Event.setPlatformConfig pc,
          Event.setInitCacheMode c, Event.setCpuFixedPointMode x, Event.build],
         env.build (a :: L) ub pc c x) :=
  ⟨rfl, rfl⟩

/-- Claim C4. Evaluation of `case 'r'`: `-r gpu` selects GPU and `-r aip`
selects AIP_FIXED_TF, but `-r cpu` selects DSP (the third comparison,
`strcmp(optarg, "dsp")` without `== 0`, holds for every name other than
`dsp`), and `-r dsp` falls through to the "not valid" branch and leaves the
runtime as it was, CPU by default. The runs of `main` hand DSP, resp. CPU, to
`checkRuntime` and to `setRuntimeProcessorOrder`. -/
theorem single_runtime_option_selection :
    (∀ v : Vars, (caseR "gpu" v).runtime = GPU)
    ∧ (∀ v : Vars, (caseR "aip" v).runtime = AIP_FIXED_TF)
    ∧ (∀ v : Vars, (caseR "cpu" v).runtime = DSP)
    ∧ (∀ v : Vars, (caseR "dsp" v).runtime = v.runtime)
    ∧ main sampleEnv ["snpe-sample", "-d", "m.dlc", "-i", "in.txt", "-r", "cpu"]
      = some ⟨[Event.initializeLogging, Event.setLogLevel,
          Event.checkRuntime DSP false,
          Event.loadContainerFromFile "m.dlc", Event.loadUDOPackage "",
          Event.setOutputLayers, Event.setRuntimeProcessorOrder [DSP],
          Event.setUseUserSuppliedBuffers false, Event.setPlatformConfig {},
          Event.setInitCacheMode false, Event.setCpuFixedPointMode false, Event.build,
          Event.getInputDimensions, Event.cout "batchSize = 1", Event.cout "224",
          Event.cout "224", Event.cout "3", Event.preprocessInput "in.txt" 1],
          Outcome.exit 0⟩
    ∧ main sampleEnv ["snpe-sample", "-d", "m.dlc", "-i", "in.txt", "-r", "dsp"]
      = some ⟨[Event.initializeLogging, Event.setLogLevel,
          Event.cerr "The runtime option provide is not valid. Defaulting to the CPU runtime.",
          Event.checkRuntime CPU false,
          Event.loadContainerFromFile "m.dlc", Event.loadUDOPackage "",
          Event.setOutputLayers, Event.setRuntimeProcessorOrder [CPU],
          Event.setUseUserSuppliedBuffers false, Event.setPlatformConfig {},
          Event.setInitCacheMode false, Event.setCpuFixedPointMode false, Event.build,
          Event.getInputDimensions, Event.cout "batchSize = 1", Event.cout "224",
          Event.cout "224", Event.cout "3", Event.preprocessInput "in.txt" 1],
          Outcome.exit 0⟩ :=
  ⟨fun _ => rfl, fun _ => rfl, fun _ => rfl, fun _ => rfl, by decide, by decide⟩

/-- Claim C6. Evaluation of the option loop: in the option string of line 82
the character `c` is followed by a colon, so `getopt` takes the word after
`-c` as its value. On `-c -x` the loop is left with `usingInitCaching = true`
and `cpuFixedPointMode = false`: the word `-x` has been consumed by `-c`. A
`-c` at the end of the command line is an error of `getopt` and ends the run
with status 1. The option `-x`, without a colon, consumes nothing. -/
theorem init_caching_option_consumes_next_word :
    optLookup optstring.data 'c' = some true
    ∧ optLookup optstring.data 'x' = some false
    ∧ (∀ env : Env, parseOptions env ["snpe-sample", "-c", "-x"]
        = some (Except.ok { initialVars with usingInitCaching := true, cpuFixedPointMode := false }))
    ∧ (∀ env : Env, parseOptions env ["snpe-sample", "-x", "-c", "-x"]
        = some (Except.ok { initialVars with usingInitCaching := true, cpuFixedPointMode := true }))
    ∧ (∀ env : Env, main env ["snpe-sample", "-x", "-c"]
        = some ⟨[Event.initializeLogging, Event.setLogLevel,
            Event.cout "Invalid parameter specified. Please run snpe-sample with the -h flag to see required arguments"],
            Outcome.exit 1⟩)
    ∧ main sampleEnv ["snpe-sample", "-d", "m.dlc", "-i", "in.txt", "-c", "-x"]
      = some ⟨[Event.initializeLogging, Event.setLogLevel,
          Event.loadContainerFromFile "m.dlc", Event.loadUDOPackage "",
          Event.setOutputLayers, Event.setRuntimeProcessorOrder [CPU],
          Event.setUseUserSuppliedBuffers false, Event.setPlatformConfig {},
          Event.setInitCacheMode true, Event.setCpuFixedPointMode false, Event.build,
          Event.save "m.dlc", Event.cout "Saved container into archive successfully",
          Event.getInputDimensions, Event.cout "batchSize = 1", Event.cout "224",
          Event.cout "224", Event.cout "3", Event.preprocessInput "in.txt" 1],
          Outcome.exit 0⟩ :=
  ⟨by decide, by decide, fun _ => rfl, fun _ => rfl, fun _ => rfl, by decide⟩

/-! ## Claims stated on the command line -/

/-- Claim C1. On every command line on which `getopt` finds a `-r <name>` and
a `-l <csv>`, in either order, with all options accepted (no `-h`, no option
that `getopt` rejects, every `-l` list accepted, so that the parsed runtime
list is not empty) and the files, the buffer type, the buffer source and the
`-q` value valid, `main` ends with status 1 in the "-l with -r" check of
line 307: the trace is one without any call of `checkRuntime`, of the
container or UDO loader, or of the builder, followed by the diagnostic of
that check. -/
theorem conflicting_selection_rejected (env : Env) (argv : List String)
    (name csv : String) (bt : BufferType) (q : Bool)
    (hopts : ∀ o ∈ options argv, optionAccepted env o = true)
    (hr : GetoptRet.opt 'r' (some name) ∈ options argv)
    (hl : GetoptRet.opt 'l' (some csv) ∈ options argv)
    (hd : env.fileOpens ((lastArg 'd' (options argv)).getD "") = true)
    (hi : env.fileOpens ((lastArg 'i' (options argv)).getD "") = true)
    (hb : bufferTypeOf ((lastArg 'b' (options argv)).getD "ITENSOR") = some bt)
    (hu : userBufferSourceError env bt ((lastArg 's' (options argv)).getD "CPUBUFFER") = none)
    (hq : staticQuantizationOf ((lastArg 'q' (options argv)).getD "false") = some q) :
    ∃ tr, main env argv
        = some ⟨tr ++ [Event.cout "Invalid option cannot mix runtime order -l with runtime -r "],
            Outcome.exit 1⟩
      ∧ ∀ e ∈ tr, e.isSelectionOrLater = false := by
  obtain ⟨v, hparse, hsum⟩ := parseOptions_accepted env argv hopts
  obtain ⟨s1, s2, _, s4, s5, s6, _, s8, s9, _, _⟩ := hsum
  simp only [initialVars] at s1 s2 s4 s5 s6 s8 s9
  have hspec : v.runtimeSpecified = true := by
    rw [s9, hasOption_of_mem 'r' _ _ hr]; rfl
  have hlist : v.runtimeList ≠ [] := by
    obtain ⟨b, hb'⟩ := lastArg_isSome_of_mem 'l' _ csv hl
    have hacc := hopts _ (lastArg_mem 'l' _ b hb')
    have hne := ((listAccepted_iff env b).mp (by simpa [optionAccepted] using hacc)).1
    rw [s8, hb']
    simpa using hne
  refine ⟨v.trace, ?_, (parseOptions_ok_invariant env argv v hparse).1⟩
  rw [main_of_parse_ok env argv v hparse,
    afterOptions_valid env v bt q (by rw [s1]; exact hd) (by rw [s2]; exact hi)
      (by rw [s4]; exact hb) (by rw [s5]; exact hu) (by rw [s6]; exact hq),
    selectAndBuild_conflict env v bt q hspec hlist]

theorem conflicting_selection_rejected_witness :
    (∃ tr, main sampleEnv
          ["snpe-sample", "-d", "m.dlc", "-i", "in.txt", "-r", "gpu", "-l", "cpu,dsp", "-x"]
        = some ⟨tr ++ [Event.cout "Invalid option cannot mix runtime order -l with runtime -r "],
            Outcome.exit 1⟩
      ∧ ∀ e ∈ tr, e.isSelectionOrLater = false)
    ∧ (∃ tr, main sampleEnv
          ["snpe-sample", "-l", "cpu,dsp", "-x", "-r", "gpu", "-d", "m.dlc", "-i", "in.txt"]
        = some ⟨tr ++ [Event.cout "Invalid option cannot mix runtime order -l with runtime -r "],
            Outcome.exit 1⟩
      ∧ ∀ e ∈ tr, e.isSelectionOrLater = false) :=
  ⟨conflicting_selection_rejected sampleEnv
      ["snpe-sample", "-d", "m.dlc", "-i", "in.txt", "-r", "gpu", "-l", "cpu,dsp", "-x"]
      "gpu" "cpu,dsp" BufferType.ITENSOR false
      (by decide) (by decide) (by decide) rfl rfl (by decide) (by decide) (by decide),
   conflicting_selection_rejected sampleEnv
      ["snpe-sample", "-l", "cpu,dsp", "-x", "-r", "gpu", "-d", "m.dlc", "-i", "in.txt"]
      "gpu" "cpu,dsp" BufferType.ITENSOR false
      (by decide) (by decide) (by decide) rfl rfl (by decide) (by decide) (by decide)⟩

theorem split_ne_nil (s : String) (sep : Char) : split s sep ≠ [] := by
  have h : ∀ (cs cur : List Char), splitFrom sep cs cur ≠ [] := by
    intro cs
    induction cs with
    | nil => intro cur; simp [splitFrom]
    | cons c cs ih =>
      intro cur
      simp only [splitFrom]
      split_ifs
      · simp
      · exact ih _
  exact h _ _

/-- Claim C8. On every command line all of whose options are accepted (no
`-h`, no option that `getopt` rejects, every `-l` list accepted) let `s` be
the value of the last `-q`, or `false` when there is no `-q`. If `s` is
neither `true` nor `false`, `main` ends with status 1 and a trace without any
call of `checkRuntime`, of the loaders or of the builder, whatever the other
options. If `s` is `true`, resp. `false`, and the files, the buffer type (any
of the four, as the last `-b` gives it) and the buffer source are valid,
`main` enters runtime selection (line 306) with `staticQuantization = true`,
resp. `false`, and that is the flag `checkRuntime` receives when there is a
`-r` and no `-l`. -/
theorem static_quantization_resolution (env : Env) (argv : List String) (s : String)
    (hopts : ∀ o ∈ options argv, optionAccepted env o = true)
    (hs : (lastArg 'q' (options argv)).getD "false" = s) :
    (s ≠ "true" → s ≠ "false" →
        ∃ run, main env argv = some run ∧ run.outcome = Outcome.exit 1
          ∧ ∀ e ∈ run.trace, e.isSelectionOrLater = false)
    ∧ (∀ (bt : BufferType) (q : Bool),
        (s = "true" ∧ q = true ∨ s = "false" ∧ q = false) →
        env.fileOpens ((lastArg 'd' (options argv)).getD "") = true →
        env.fileOpens ((lastArg 'i' (options argv)).getD "") = true →
        bufferTypeOf ((lastArg 'b' (options argv)).getD "ITENSOR") = some bt →
        userBufferSourceError env bt ((lastArg 's' (options argv)).getD "CPUBUFFER") = none →
        ∃ v, parseOptions env argv = some (Except.ok v)
          ∧ main env argv = some (selectAndBuild env v bt q)
          ∧ (hasOption 'r' (options argv) = true → lastArg 'l' (options argv) = none →
              Event.checkRuntime v.runtime q ∈ (selectAndBuild env v bt q).trace)) := by
  obtain ⟨v, hparse, hsum⟩ := parseOptions_accepted env argv hopts
  obtain ⟨s1, s2, _, s4, s5, s6, _, s8, s9, _, _⟩ := hsum
  simp only [initialVars] at s1 s2 s4 s5 s6 s8 s9
  rw [hs] at s6
  refine ⟨?_, ?_⟩
  · intro h1 h2
    have hq : staticQuantizationOf v.staticQuantizationStr = none := by
      rw [s6]; exact staticQuantizationOf_other s h1 h2
    obtain ⟨ho, ht⟩ := afterOptions_invalid_quantization env v
      (parseOptions_ok_invariant env argv v hparse).1 hq
    exact ⟨_, main_of_parse_ok env argv v hparse, ho, ht⟩
  · intro bt q hsq hd hi hb hu
    have hq : staticQuantizationOf v.staticQuantizationStr = some q := by
      rw [s6]
      rcases hsq with ⟨rfl, rfl⟩ | ⟨rfl, rfl⟩ <;> rfl
    refine ⟨v, hparse, ?_, ?_⟩
    · rw [main_of_parse_ok env argv v hparse,
        afterOptions_valid env v bt q (by rw [s1]; exact hd) (by rw [s2]; exact hi)
          (by rw [s4]; exact hb) (by rw [s5]; exact hu) hq]
    · intro hr hl
      have hspec : v.runtimeSpecified = true := by rw [s9, hr]; rfl
      have hlist : v.runtimeList = [] := by rw [s8, hl]; rfl
      unfold selectAndBuild
      rw [if_neg (by simp [hlist]), if_pos hspec]
      obtain ⟨es, hes, _⟩ := loadAndBuild_trace env
        { v.emit [Event.checkRuntime v.runtime q] with
            runtime := env.checkRuntime v.runtime q } bt
      rw [hes]
      simp [Vars.emit]

theorem static_quantization_resolution_witness :
    (∃ v, parseOptions sampleEnv
          ["snpe-sample", "-d", "m.dlc", "-i", "in.txt", "-q", "true", "-b", "USERBUFFER_TF8",
            "-r", "gpu"]
          = some (Except.ok v)
        ∧ main sampleEnv
            ["snpe-sample", "-d", "m.dlc", "-i", "in.txt", "-q", "true", "-b", "USERBUFFER_TF8",
              "-r", "gpu"]
          = some (selectAndBuild sampleEnv v BufferType.USERBUFFER_TF8 true)
        ∧ Event.checkRuntime v.runtime true
            ∈ (selectAndBuild sampleEnv v BufferType.USERBUFFER_TF8 true).trace)
    ∧ ∃ run, main sampleEnv ["snpe-sample", "-q", "yes", "-b", "USERBUFFER_TF8"] = some run
        ∧ run.outcome = Outcome.exit 1 ∧ ∀ e ∈ run.trace, e.isSelectionOrLater = false :=
  ⟨(fun ⟨v, h1, h2, h3⟩ => ⟨v, h1, h2, h3 (by decide) (by decide)⟩)
      ((static_quantization_resolution sampleEnv
        ["snpe-sample", "-d", "m.dlc", "-i", "in.txt", "-q", "true", "-b", "USERBUFFER_TF8",
          "-r", "gpu"] "true" (by decide) (by decide)).2
        BufferType.USERBUFFER_TF8 true (Or.inl ⟨rfl, rfl⟩) rfl rfl (by decide) (by decide)),
   (static_quantization_resolution sampleEnv
      ["snpe-sample", "-q", "yes", "-b", "USERBUFFER_TF8"] "yes" (by decide) (by decide)).1
      (by decide) (by decide)⟩

/-- On a command line all of whose options are accepted, with no `-r`, the
other options valid, and the container and the UDO packages loading, the
builder is called once, and `setRuntimeProcessorOrder` receives the resolved
ids of the last `-l` list, in input order. -/
theorem builder_receives_last_list (env : Env) (argv : List String) (s : String)
    (bt : BufferType) (q : Bool)
    (hopts : ∀ o ∈ options argv, optionAccepted env o = true)
    (hlast : lastArg 'l' (options argv) = some s)
    (hnor : hasOption 'r' (options argv) = false)
    (hd : env.fileOpens ((lastArg 'd' (options argv)).getD "") = true)
    (hi : env.fileOpens ((lastArg 'i' (options argv)).getD "") = true)
    (hb : bufferTypeOf ((lastArg 'b' (options argv)).getD "ITENSOR") = some bt)
    (hu : userBufferSourceError env bt ((lastArg 's' (options argv)).getD "CPUBUFFER") = none)
    (hq : staticQuantizationOf ((lastArg 'q' (options argv)).getD "false") = some q)
    (hc : env.loadContainerFromFile ((lastArg 'd' (options argv)).getD "") = true)
    (hudo : env.loadUDOPackage ((lastArg 'u' (options argv)).getD "") = true) :
    ∃ run, main env argv = some run
      ∧ (∃ v, parseOptions env argv = some (Except.ok v)
          ∧ v.runtimeList = (env.split s ',').map env.stringToRuntime)
      ∧ run.trace.filter Event.isBuilderCall
        = [Event.setOutputLayers,
           Event.setRuntimeProcessorOrder ((env.split s ',').map env.stringToRuntime),
           Event.setUseUserSuppliedBuffers
             (decide (bt = BufferType.USERBUFFER_FLOAT ∨ bt = BufferType.USERBUFFER_TF8
               ∨ bt = BufferType.USERBUFFER_TF16)),
           Event.setPlatformConfig {},
           Event.setInitCacheMode (hasOption 'c' (options argv)),
           Event.setCpuFixedPointMode (hasOption 'x' (options argv)),
           Event.build]
      ∧ ∀ e ∈ run.trace, e.isCheckRuntime = false := by
  obtain ⟨v, hparse, hsum⟩ := parseOptions_accepted env argv hopts
  obtain ⟨s1, s2, _, s4, s5, s6, s7, s8, s9, s10, s11⟩ := hsum
  simp only [initialVars] at s1 s2 s4 s5 s6 s7 s8 s9 s10 s11
  have hsel := (parseOptions_ok_invariant env argv v hparse).1
  have hspec : v.runtimeSpecified = false := by rw [s9, hnor]; rfl
  have hlist : v.runtimeList = (env.split s ',').map env.stringToRuntime := by
    rw [s8, hlast]; rfl
  have hne : (env.split s ',').map env.stringToRuntime ≠ [] := by
    have hacc := hopts _ (lastArg_mem 'l' _ s hlast)
    have := ((listAccepted_iff env s).mp (by simpa [optionAccepted] using hacc)).1
    simpa using this
  refine ⟨_, main_of_parse_ok env argv v hparse, ⟨v, hparse, hlist⟩, ?_, ?_⟩
  · rw [afterOptions_valid env v bt q (by rw [s1]; exact hd) (by rw [s2]; exact hi)
      (by rw [s4]; exact hb) (by rw [s5]; exact hu) (by rw [s6]; exact hq)]
    obtain ⟨es, hes, _, _, hcalls⟩ := selectAndBuild_trace env v bt q
    rw [hes, List.filter_append, filter_builder_of_noSelection _ hsel,
      hcalls (by simp [hspec]) (by rw [s1]; exact hc) (by rw [s7]; exact hudo),
      setBuilderOptions_calls, hlist, s10, s11]
    simp [hne, hspec]
  · rw [afterOptions_valid env v bt q (by rw [s1]; exact hd) (by rw [s2]; exact hi)
      (by rw [s4]; exact hb) (by rw [s5]; exact hu) (by rw [s6]; exact hq)]
    obtain ⟨es, hes, hcr, _, _⟩ := selectAndBuild_trace env v bt q
    rw [hes]
    intro e he
    rcases List.mem_append.mp he with he | he
    · have := hsel e he
      cases e <;> simp_all [Event.isSelectionOrLater, Event.isCheckRuntime]
    · cases hce : e.isCheckRuntime with
      | false => rfl
      | true =>
        have := (hcr e he hce).1
        rw [hspec] at this
        exact absurd this (by simp)

/-- Claim C5. With the function `split` as the spec gives it: on every
command line whose last `-l` argument is `s`, where the tokens of `s`
resolve, to pairwise distinct backend ids (the tokens are then pairwise
distinct themselves), with no
`-r`, the other options accepted (no `-h`, no option that `getopt` rejects,
any earlier `-l` list accepted), the files, the buffer type, the buffer
source and the `-q` value valid, and the container and the UDO packages
loading, the list is not rejected: the builder is called once, and
`setRuntimeProcessorOrder` receives exactly the resolved ids of the tokens
of `s`, in input order. -/
theorem ordered_list_preserved (env : Env) (argv : List String) (s : String)
    (bt : BufferType) (q : Bool)
    (hlast : lastArg 'l' (options argv) = some s)
    (hres : ∀ t ∈ split s ',', env.stringToRuntime t ≠ UNSET)
    (hids : ((split s ',').map env.stringToRuntime).Nodup)
    (hnor : hasOption 'r' (options argv) = false)
    (hothers : ∀ o ∈ options argv, o ≠ GetoptRet.opt 'l' (some s) →
      optionAccepted (withSpecSplit env) o = true)
    (hd : env.fileOpens ((lastArg 'd' (options argv)).getD "") = true)
    (hi : env.fileOpens ((lastArg 'i' (options argv)).getD "") = true)
    (hb : bufferTypeOf ((lastArg 'b' (options argv)).getD "ITENSOR") = some bt)
    (hu : userBufferSourceError env bt ((lastArg 's' (options argv)).getD "CPUBUFFER") = none)
    (hq : staticQuantizationOf ((lastArg 'q' (options argv)).getD "false") = some q)
    (hc : env.loadContainerFromFile ((lastArg 'd' (options argv)).getD "") = true)
    (hudo : env.loadUDOPackage ((lastArg 'u' (options argv)).getD "") = true) :
    ∃ run, main (withSpecSplit env) argv = some run
      ∧ (∃ v, parseOptions (withSpecSplit env) argv = some (Except.ok v)
          ∧ v.runtimeList = (split s ',').map env.stringToRuntime)
      ∧ run.trace.filter Event.isBuilderCall
        = [Event.setOutputLayers,
           Event.setRuntimeProcessorOrder ((split s ',').map env.stringToRuntime),
           Event.setUseUserSuppliedBuffers
             (decide (bt = BufferType.USERBUFFER_FLOAT ∨ bt = BufferType.USERBUFFER_TF8
               ∨ bt = BufferType.USERBUFFER_TF16)),
           Event.setPlatformConfig {},
           Event.setInitCacheMode (hasOption 'c' (options argv)),
           Event.setCpuFixedPointMode (hasOption 'x' (options argv)),
           Event.build] := by
  have hacc : ∀ o ∈ options argv, optionAccepted (withSpecSplit env) o = true := by
    intro o ho
    by_cases hos : o = GetoptRet.opt 'l' (some s)
    · subst hos
      have : listAccepted (withSpecSplit env) s = true :=
        (listAccepted_iff _ s).mpr ⟨split_ne_nil s ',', hres, hids⟩
      simp [optionAccepted, this]
    · exact hothers o ho hos
  obtain ⟨run, hrun, hv, hcalls, _⟩ := builder_receives_last_list (withSpecSplit env) argv s
    bt q hacc hlast hnor hd hi hb hu hq hc hudo
  exact ⟨run, hrun, hv, hcalls⟩

theorem ordered_list_preserved_witness :
    ∃ run, main (withSpecSplit sampleEnv)
          ["snpe-sample", "-d", "m.dlc", "-l", "dsp,cpu", "-i", "in.txt", "-l", "cpu,gpu,dsp"]
        = some run
      ∧ (∃ v, parseOptions (withSpecSplit sampleEnv)
            ["snpe-sample", "-d", "m.dlc", "-l", "dsp,cpu", "-i", "in.txt", "-l", "cpu,gpu,dsp"]
          = some (Except.ok v)
          ∧ v.runtimeList = [CPU, GPU, DSP])
      ∧ run.trace.filter Event.isBuilderCall
        = [Event.setOutputLayers, Event.setRuntimeProcessorOrder [CPU, GPU, DSP],
           Event.setUseUserSuppliedBuffers false, Event.setPlatformConfig {},
           Event.setInitCacheMode false, Event.setCpuFixedPointMode false, Event.build] :=
  ordered_list_preserved sampleEnv
    ["snpe-sample", "-d", "m.dlc", "-l", "dsp,cpu", "-i", "in.txt", "-l", "cpu,gpu,dsp"]
    "cpu,gpu,dsp" BufferType.ITENSOR false (by decide) (by decide) (by decide)
    (by decide) (by decide) rfl rfl (by decide) (by decide) (by decide) rfl rfl

/-! ## The diagnostics of `case 'l'` -/

theorem switchOpt_l (env : Env) (argv : List String) (optind : Nat) (s : String) (v : Vars) :
    switchOpt env argv optind (GetoptRet.opt 'l' (some s)) v
      = caseL env (argv.getD (optind - 2) "") s v :=
  rfl

/-- The resolution loop on tokens `pre` that resolve, followed by a token
`bad` that does not: it ends the run in the unknown-token exit, right after
the lookup of `bad`, when the ids of `pre` are new and pairwise distinct,
and in the exit of a failed `add` otherwise. -/
theorem resolveLoop_first_unknown (env : Env) (arg : String) (bad : String)
    (post : List String) (hbad : env.stringToRuntime bad = UNSET) :
    ∀ (pre : List String) (v : Vars), (∀ u ∈ pre, env.stringToRuntime u ≠ UNSET) →
      v.runtimeList.Nodup →
      ∃ run, resolveLoop env arg (pre ++ bad :: post) v = Except.error run
        ∧ run.outcome = Outcome.exit 1
        ∧ ((v.runtimeList ++ pre.map env.stringToRuntime).Nodup →
            run.trace = v.trace ++ resolveEvents (pre ++ [bad])
              ++ [Event.cerr (unknownMessage arg)])
        ∧ (¬ (v.runtimeList ++ pre.map env.stringToRuntime).Nodup →
            run.trace.getLast? = some (Event.cerr (addFailedMessage arg))) := by
  intro pre
  induction pre with
  | nil =>
    intro v _ hnd
    refine ⟨_, resolveLoop_unknown env arg bad post v hbad, rfl, ?_, ?_⟩
    · intro _; simp [resolveEvents]
    · intro h; exact absurd (by simpa using hnd) h
  | cons x pre ih =>
    intro v hpre hnd
    have hx : env.stringToRuntime x ≠ UNSET := hpre x (by simp)
    by_cases hmem : env.stringToRuntime x ∈ v.runtimeList
    · refine ⟨_, resolveLoop_addFailed env arg x (pre ++ bad :: post) v hx hmem, rfl, ?_, ?_⟩
      · intro h
        have := (List.nodup_append.mp h).2.2
        exact absurd hmem (fun hm => this hm (by simp))
      · intro _; simp
    · have hnd1 : (v.runtimeList ++ [env.stringToRuntime x]).Nodup := by
        rw [List.nodup_append]
        refine ⟨hnd, by simp, ?_⟩
        intro a ha hb
        simp at hb
        subst hb
        exact hmem ha
      obtain ⟨run, hrun, ho, h1, h2⟩ := ih
        { v with trace := v.trace ++ [Event.stringToRuntime x],
                 runtimeList := v.runtimeList ++ [env.stringToRuntime x] }
        (fun u hu => hpre u (by simp [hu])) hnd1
      refine ⟨run, ?_, ho, ?_, ?_⟩
      · rw [List.cons_append, resolveLoop_cons_ok env arg x _ v hx hmem]
        exact hrun
      · intro h
        rw [h1 (by simpa using h)]
        simp [resolveEvents]
      · intro h
        exact h2 (by simpa using h)

/-- Whenever `case 'l'` runs on an argument `s` whose tokens are pairwise
distinct and whose first unresolvable token is `bad` (after the tokens
`pre`, before the tokens `post`), it ends the run with status 1, in the
unknown-token exit when the tokens of `pre` resolve to pairwise distinct
ids and in the exit of a failed `add` otherwise; the diagnostic is a fixed
text around the word `argv[optind - 2]`. -/
theorem switchOpt_first_unknown (env : Env) (argv : List String) (optind : Nat) (s : String)
    (v : Vars) (pre : List String) (bad : String) (post : List String)
    (hsplit : env.split s ',' = pre ++ bad :: post)
    (hnd : (pre ++ bad :: post).Nodup)
    (hpre : ∀ u ∈ pre, env.stringToRuntime u ≠ UNSET)
    (hbad : env.stringToRuntime bad = UNSET) :
    (∃ run, switchOpt env argv optind (GetoptRet.opt 'l' (some s)) v = Except.error run
      ∧ run.outcome = Outcome.exit 1
      ∧ ((pre.map env.stringToRuntime).Nodup →
          run.trace = v.trace ++ Event.cout ("Input String: " ++ s)
            :: resolveEvents (pre ++ [bad])
            ++ [Event.cerr ("Error: Invalid values passed to the argument "
                  ++ argv.getD (optind - 2) ""
                  ++ ". Please provide comma seperated runtime order of precedence")])
      ∧ (¬ (pre.map env.stringToRuntime).Nodup →
          run.trace.getLast? = some (Event.cerr ("Error: Invalid values passed to the argument "
                  ++ argv.getD (optind - 2) ""
                  ++ ". Please provide comma seperated runtime order of precedence."))))
    ∧ (∀ i : Nat, argv[i]? = some "-l" → argv[i + 1]? = some s →
        iteration env argv ⟨i, []⟩ v
          = some (switchOpt env argv (i + 2) (GetoptRet.opt 'l' (some s)) v, ⟨i + 2, []⟩)
        ∧ argv.getD (i + 2 - 2) "" = "-l") := by
  have hne : env.split s ',' ≠ [] := by rw [hsplit]; simp
  refine ⟨?_, ?_⟩
  · rw [switchOpt_l, caseL_nodup env _ s v hne (by rw [hsplit]; exact hnd), hsplit]
    obtain ⟨run, hrun, ho, h1, h2⟩ := resolveLoop_first_unknown env
      (argv.getD (optind - 2) "") bad post hbad pre
      { v with trace := v.trace ++ [Event.cout ("Input String: " ++ s)], runtimeList := [] }
      hpre (by simp)
    refine ⟨run, hrun, ho, ?_, ?_⟩
    · intro h
      rw [h1 (by simpa using h)]
      simp [unknownMessage]
    · intro h
      rw [h2 (by simpa using h)]
      rfl
  · intro i hl hs
    refine ⟨?_, by simp [hl]⟩
    rw [iteration_separate_l env argv i s v hl hs, switchOpt_l]
    simp [hl]

/-- Claim C3, as amended. Whenever `getopt` returns `-l` with an argument
`s` whose tokens are pairwise distinct and whose first unresolvable token is
`bad` (after the tokens `pre`, before the tokens `post`), that turn of the
option loop ends the run with status 1, and when `-l` is the first option
that is the run of `main`. The diagnostic is a fixed text around the word
`argv[optind - 2]` and carries no token: when the tokens of `pre` resolve
to pairwise distinct ids it is the unknown-token text, written right after
the lookup of `bad`, and otherwise it is the text of a failed
`RuntimeList::add` (the same text with a final period). When `-l` and `s`
are separate words, the word named is `-l`, the option that produced the
token. -/
theorem unknown_token_rejected (env : Env) (argv : List String) (st st' : GetoptState)
    (s : String) (v : Vars) (pre : List String) (bad : String) (post : List String)
    (hget : getopt argv optstring st = (GetoptRet.opt 'l' (some s), st'))
    (hsplit : env.split s ',' = pre ++ bad :: post)
    (hnd : (pre ++ bad :: post).Nodup)
    (hpre : ∀ u ∈ pre, env.stringToRuntime u ≠ UNSET)
    (hbad : env.stringToRuntime bad = UNSET) :
    ∃ run, iteration env argv st v = some (Except.error run, st')
      ∧ run.outcome = Outcome.exit 1
      ∧ ((pre.map env.stringToRuntime).Nodup →
          run.trace = v.trace ++ Event.cout ("Input String: " ++ s)
            :: resolveEvents (pre ++ [bad])
            ++ [Event.cerr ("Error: Invalid values passed to the argument "
                  ++ argv.getD (st'.optind - 2) ""
                  ++ ". Please provide comma seperated runtime order of precedence")])
      ∧ (¬ (pre.map env.stringToRuntime).Nodup →
          run.trace.getLast? = some (Event.cerr ("Error: Invalid values passed to the argument "
                  ++ argv.getD (st'.optind - 2) ""
                  ++ ". Please provide comma seperated runtime order of precedence.")))
      ∧ (∀ i : Nat, st = ⟨i, []⟩ → argv[i]? = some "-l" → argv.getD (st'.optind - 2) "" = "-l")
      ∧ (st = {} → v = initialVars → main env argv = some run) := by
  obtain ⟨run, hrun, ho, h1, h2⟩ := (switchOpt_first_unknown env argv st'.optind s v pre bad post
    hsplit hnd hpre hbad).1
  have hit : iteration env argv st v = some (Except.error run, st') := by
    unfold iteration
    rw [hget]
    simp only
    rw [hrun]
  refine ⟨run, hit, ho, h1, h2, ?_, ?_⟩
  · intro i hst hl
    subst hst
    have hlook : optLookup optstring.data 'l' = some true := by decide
    cases hnext : argv[i + 1]? with
    | none =>
      simp [getopt, hl, getoptChar, hlook, hnext] at hget
    | some a =>
      simp [getopt, hl, getoptChar, hlook, hnext] at hget
      rw [← hget.2]
      simp [hl]
  · intro hst hv
    subst hst hv
    exact main_of_first_turn_error env argv run st' hit

theorem unknown_token_rejected_witness :
    ∃ run, main sampleEnv ["snpe-sample", "-l", "cpu,tpu"] = some run
      ∧ run.outcome = Outcome.exit 1
      ∧ run.trace = initialVars.trace ++ Event.cout ("Input String: " ++ "cpu,tpu")
            :: resolveEvents (["cpu"] ++ ["tpu"])
            ++ [Event.cerr ("Error: Invalid values passed to the argument "
                  ++ ["snpe-sample", "-l", "cpu,tpu"].getD (3 - 2) ""
                  ++ ". Please provide comma seperated runtime order of precedence")]
      ∧ ["snpe-sample", "-l", "cpu,tpu"].getD (3 - 2) "" = "-l" :=
  (fun ⟨run, _, ho, h1, _, hw, hm⟩ => ⟨run, hm rfl rfl, ho, h1 (by decide), hw 1 rfl rfl⟩)
    (unknown_token_rejected sampleEnv ["snpe-sample", "-l", "cpu,tpu"] {} ⟨3, []⟩ "cpu,tpu"
      initialVars ["cpu"] "tpu" [] (by decide) (by decide) (by decide) (by decide) (by decide))

/-- Claim C3, counterexample. For `-l cpu,tpu` the run ends with status 1 in
the unknown-token error, and the only text written to `std::cerr` does not
contain the offending token `tpu` (the whole argument is echoed on
`std::cout` before validation, the diagnostic names the option alone). For
`-l cpu,cpu_float32,tpu`, whose tokens are pairwise distinct as well, the
run ends in the error of a failed `RuntimeList::add` before `tpu` is looked
at. For `-lcpu,tpu`, the same argument in one word with its option, the
diagnostic names neither the token nor the option `-l`: the word
`argv[optind - 2]` is the program name. -/
theorem unknown_token_not_named :
    main sampleEnv ["snpe-sample", "-l", "cpu,tpu"]
      = some ⟨[Event.initializeLogging, Event.setLogLevel,
          Event.cout "Input String: cpu,tpu",
          Event.stringToRuntime "cpu", Event.stringToRuntime "tpu",
          Event.cerr "Error: Invalid values passed to the argument -l. Please provide comma seperated runtime order of precedence"],
          Outcome.exit 1⟩
    ∧ occursIn "tpu" "Error: Invalid values passed to the argument -l. Please provide comma seperated runtime order of precedence" = false
    ∧ main sampleEnv ["snpe-sample", "-l", "cpu,cpu_float32,tpu"]
      = some ⟨[Event.initializeLogging, Event.setLogLevel,
          Event.cout "Input String: cpu,cpu_float32,tpu",
          Event.stringToRuntime "cpu", Event.stringToRuntime "cpu_float32",
          Event.cerr "",
          Event.cerr "Error: Invalid values passed to the argument -l. Please provide comma seperated runtime order of precedence."],
          Outcome.exit 1⟩
    ∧ main sampleEnv ["snpe-sample", "-lcpu,tpu"]
      = some ⟨[Event.initializeLogging, Event.setLogLevel,
          Event.cout "Input String: cpu,tpu",
          Event.stringToRuntime "cpu", Event.stringToRuntime "tpu",
          Event.cerr "Error: Invalid values passed to the argument snpe-sample. Please provide comma seperated runtime order of precedence"],
          Outcome.exit 1⟩
    ∧ occursIn "-l" "Error: Invalid values passed to the argument snpe-sample. Please provide comma seperated runtime order of precedence" = false := by
  decide

/-- Claim C2. Evaluation of `main` on a `-l` argument with a repeated token,
given in one word with its option: the run ends with status 1 in the
"Duplicate entries in runtime order" diagnostic before any token is
resolved, as for `-l cpu,gpu,cpu`, but line 187 prints `argv[optind - 2]`,
which is the option only when the option and its value are two words: the
diagnostic names the program, or the value of the option before, and not
the list option. -/
theorem duplicate_diagnostic_names_another_word :
    main sampleEnv ["snpe-sample", "-lcpu,gpu,cpu"]
      = some ⟨[Event.initializeLogging, Event.setLogLevel,
          Event.cout "Input String: cpu,gpu,cpu",
          Event.cerr "Error: Invalid values passed to the argument snpe-sample. Duplicate entries in runtime order."],
          Outcome.exit 1⟩
    ∧ main sampleEnv ["snpe-sample", "-d", "m.dlc", "-lcpu,gpu,cpu"]
      = some ⟨[Event.initializeLogging, Event.setLogLevel,
          Event.cout "Input String: cpu,gpu,cpu",
          Event.cerr "Error: Invalid values passed to the argument m.dlc. Duplicate entries in runtime order."],
          Outcome.exit 1⟩
    ∧ main sampleEnv ["snpe-sample", "-l", "cpu,gpu,cpu"]
      = some ⟨[Event.initializeLogging, Event.setLogLevel,
          Event.cout "Input String: cpu,gpu,cpu",
          Event.cerr "Error: Invalid values passed to the argument -l. Duplicate entries in runtime order."],
          Outcome.exit 1⟩ := by
  decide

end SnpeSample
